import Mathlib

/-!
# Routing core of the messaging gateway: embedding and theorems

A shallow embedding of the Go sources of the gateway (delivery pipeline,
inbound dispatcher, presence directory, connection registry, node selectors
and their factory, RPC connection pool), of the center service (snowflake
generator) and of the signal service (per-conversation sequence), followed by
the theorems that settle the specification's claims.

Conventions of the embedding:

* a Go `error` is an `Option String` (`none` is `nil`);
* a Go function that may panic returns an `Exec`;
* the external collaborators (broker writers, redis, sockets, the JSON
  decoder, the validator, the wall clock) are oracles: functions that give
  the result of each call;
* every externally visible effect is recorded in a trace of `Event`s;
* `int64` values are integers, wrapped explicitly with `wrap64`.
-/

namespace IM

/-! ## Go runtime vocabulary -/

/-- A Go byte slice. -/
abbrev Bytes := List UInt8

/-- Result of running a Go function: it returns a value or it panics. -/
inductive Exec (α : Type) where
  | ret (a : α)
  | panic (reason : String)
deriving DecidableEq, Repr

/-- Two's-complement wrap of an integer into the `int64` range. -/
def wrap64 (x : Int) : Int := (x + 2 ^ 63) % 2 ^ 64 - 2 ^ 63

/-- The 64 bits of an `int64`, as a natural number below `2 ^ 64`. -/
def bits64 (x : Int) : Nat := (x % 2 ^ 64).toNat

/-- Go `a & b` on `int64`. -/
def and64 (a b : Int) : Int := wrap64 ((bits64 a &&& bits64 b : Nat) : Int)

/-- Go `a | b` on `int64`. -/
def or64 (a b : Int) : Int := wrap64 ((bits64 a ||| bits64 b : Nat) : Int)

/-- Go `a << k` on `int64`. -/
def shl64 (a : Int) (k : Nat) : Int := wrap64 ((bits64 a * 2 ^ k : Nat) : Int)

/-! ## gateway/dto/message.go -/

/-- The message envelope `dto.MessageDTO`. -/
structure MessageDTO where
  SenderID : String
  ReceiverId : String
  MessageType : String
  Content : String
  Time : Int
  Status : String
deriving DecidableEq, Repr

/-- The dynamic values that reach `SendMessage` through its `msg any` parameter:
a byte slice, or a `*dto.MessageDTO` (possibly nil). -/
inductive GoAny where
  | bytes (b : Bytes)
  | messageDTO (m : Option MessageDTO)
deriving DecidableEq, Repr

/-- The type assertion `msg.([]byte)`: `none` stands for the run-time panic. -/
def GoAny.assertBytes : GoAny → Option Bytes
  | .bytes b => some b
  | .messageDTO _ => none

/-! ## Effects -/

/-- Externally visible effects of the delivery pipeline, in program order.
Each one carries the error the collaborator answered with. -/
inductive Event where
  /-- `p.writer.WriteMessages`: a publish to the primary topic. -/
  | writerWrite (key : String) (value : Bytes) (err : Option String)
  /-- `p.dlq.WriteMessages`: a publish to the dead-letter topic. -/
  | dlqWrite (key : String) (value : Bytes) (err : Option String)
  /-- `conn.WriteMessage(websocket.TextMessage, data)` on a local socket. -/
  | connWrite (conn : Nat) (data : Bytes) (err : Option String)
deriving DecidableEq, Repr

/-- Is the event a publish to the primary topic? -/
def Event.isWriterWrite : Event → Bool
  | .writerWrite _ _ _ => true
  | _ => false

/-- Is the event a publish to the primary topic that the broker accepted? -/
def Event.isWriterSuccess : Event → Bool
  | .writerWrite _ _ none => true
  | _ => false

/-- Is the event a publish to the dead-letter topic? -/
def Event.isDlqWrite : Event → Bool
  | .dlqWrite _ _ _ => true
  | _ => false

/-- Is the event a write to a local socket? -/
def Event.isConnWrite : Event → Bool
  | .connWrite _ _ _ => true
  | _ => false

/-- A `context.Context` as seen by the retry loop of `SendMessage`. -/
structure Context where
  /-- Whether `Done()` is closed by the end of the wait of retry `i`. -/
  doneBy : Nat → Bool
  /-- When the timer of a zero-length wait and `Done()` are both ready, whether
  the `select` picks the timer case. -/
  timerFirst : Bool
  /-- The value of `ctx.Err()` once cancelled. -/
  err : String

/-- The never-cancelled `context.Background()`. -/
def Context.Background : Context := ⟨fun _ => false, false, ""⟩

/-- The `select` of retry `i`: true when the `<-ctx.Done()` case runs. The wait
is `i * 100µs`, so only for `i = 0` can the timer be ready together with an
already closed `Done()`. -/
def Context.selectDone (ctx : Context) (i : Nat) : Bool :=
  ctx.doneBy i && !(i == 0 && ctx.timerFirst)

/-! ## gateway/service/reply.go -/

/-- The `producer`: its two kafka writers, each given by the error its `k`-th
`WriteMessages` call returns (`none` is success). -/
structure producer where
  writer : Nat → Option String
  dlq : Nat → Option String

/-- The constructor `NewProducer`. -/
def NewProducer (writer dq : Nat → Option String) : producer := ⟨writer, dq⟩

/-- The retry bound. -/
def MAX_SEND_RETRY : Nat := 3

/-- The loop `for i := 0; i < MAX_SEND_RETRY; i++` of `SendMessage`, entered at
iteration `i` with `remaining = MAX_SEND_RETRY - i` iterations to go. Retry `i`
is call `i + 1` on the primary writer. The first component is `some e` when the
function returned `ctx.Err()` from inside the loop and `none` when the loop was
left (by `break` or by reaching the bound). -/
def producer.retryLoop (p : producer) (ctx : Context) (nodeId : String) (value : Bytes) :
    Nat → Nat → Option String × List Event
  | 0, _ => (none, [])
  | remaining + 1, i =>
    if ctx.selectDone i then (some ctx.err, [])
    else
      match p.writer (i + 1) with
      | none => (none, [Event.writerWrite nodeId value none])
      | some e =>
        let rest := producer.retryLoop p ctx nodeId value remaining (i + 1)
        (rest.1, Event.writerWrite nodeId value (some e) :: rest.2)

/-- The method `(*producer).SendMessage(ctx, msg, nodeId)`. -/
def producer.SendMessage (p : producer) (ctx : Context) (msg : GoAny) (nodeId : String) :
    Exec (Option String) × List Event :=
  match msg.assertBytes with
  | none => (.panic "interface conversion: msg is not []uint8", [])
  | some value =>
    match p.writer 0 with
    | none => (.ret none, [Event.writerWrite nodeId value none])
    | some e =>
      let first := Event.writerWrite nodeId value (some e)
      match p.retryLoop ctx nodeId value MAX_SEND_RETRY 0 with
      | (some cancelled, t) => (.ret (some cancelled), first :: t)
      | (none, t) =>
        (.ret (p.dlq 0), first :: t ++ [Event.dlqWrite nodeId value (p.dlq 0)])

/-! ## gateway/utils/status.go -/

/-- The key prefix of presence records in the shared store. -/
def PERFIX : String := "status:"

/-- The presence record `Meta`. -/
structure Meta where
  ServerId : String
  ServerAddr : String
  UserRemoteAddr : String
  Status : String
deriving DecidableEq, Repr

/-- The dynamic values held by the process-local `statusMap` (a `sync.Map` of
`any`): a `Meta`, or the string read back from redis. -/
inductive StatusValue where
  | meta (m : Meta)
  | text (s : String)
deriving DecidableEq, Repr

/-- The process-local cache `statusMap`, as an association list. -/
abbrev StatusMap := List (String × StatusValue)

/-- The call `statusMap.Load(uid)`. -/
def StatusMap.Load (m : StatusMap) (uid : String) : Option StatusValue :=
  (m.find? (fun kv => kv.1 == uid)).map (fun kv => kv.2)

/-- The call `statusMap.Store(uid, v)`. -/
def StatusMap.Store (m : StatusMap) (uid : String) (v : StatusValue) : StatusMap :=
  (uid, v) :: m.filter (fun kv => !(kv.1 == uid))

/-- The `status` service: its redis client, given by the result of
`redis.Get(ctx, key).Result()`. -/
structure status where
  redisGet : String → Except String String

/-- The method `(*status).GetStatus(uid)`, with the cache passed explicitly. The
variable `meta` has static type `any`; both returns assert `meta.(Meta)`. -/
def status.GetStatus (s : status) (statusMap : StatusMap) (uid : String) :
    Exec (Except String Meta) × StatusMap :=
  let key := PERFIX ++ uid
  match statusMap.Load uid with
  | some (.meta m) => (.ret (.ok m), statusMap)
  | some (.text _) => (.panic "interface conversion: string is not utils.Meta", statusMap)
  | none =>
    match s.redisGet key with
    | .error e => (.ret (.error e), statusMap)
    | .ok str =>
      (.panic "interface conversion: string is not utils.Meta",
        statusMap.Store uid (.text str))

/-! ## gateway/utils/pools.go -/

/-- A registry entry `WsConn`: the embedded `*websocket.Conn` (a connection
identity, `none` for a nil pointer) and the client id. -/
structure WsConn where
  Conn : Option Nat
  clientID : String
deriving DecidableEq, Repr

/-- The connection registry `Pools`: the `sync.Map` of entries, the capacity and
the live count. -/
structure Pools where
  conns : List (String × WsConn)
  max : Nat
  cnt : Nat
deriving DecidableEq, Repr

/-- The method `(*Pools).GetConnTemplate(clientId)`. -/
def Pools.GetConnTemplate (p : Pools) (clientId : String) : Option Nat × Bool :=
  match p.conns.find? (fun kv => kv.1 == clientId) with
  | none => (none, false)
  | some kv => (kv.2.Conn, true)

/-! ## gateway/core/websocket_server.go -/

/-- Everything `handleMessage` reads besides its argument: the package
variables and singletons of the gateway process, and the collaborators. -/
structure Gateway where
  /-- The package variable `SERVER_ID`. -/
  SERVER_ID : String
  /-- The call `json.Unmarshal(msg, &message)`: the error, or the resulting pointer. -/
  unmarshal : Bytes → Except String (Option MessageDTO)
  /-- The call `validate.Struct(message)`. -/
  validateStruct : Option MessageDTO → Exec (Option String)
  /-- The singleton returned by `utils.StatusTemplate()`. -/
  statusIns : status
  /-- The package variable `statusMap`. -/
  statusMap : StatusMap
  /-- The singleton returned by `utils.PoolsOpsTemplate()`. -/
  poolIns : Pools
  /-- The call `conn.WriteMessage(websocket.TextMessage, data)` on a live socket. -/
  connWrite : Nat → Bytes → Option String
  /-- The writer returned by `config.KafkaProducerTemplate()`. -/
  kafkaProducer : Nat → Option String
  /-- The writer returned by `config.KafkaDLQTemplate()`. -/
  kafkaDLQ : Nat → Option String

/-- The function `handleMessage(msg)`. It returns the outcome, the trace of
effects and the presence cache it leaves behind. -/
def handleMessage (g : Gateway) (msg : Bytes) :
    Exec (Option String) × List Event × StatusMap :=
  match g.unmarshal msg with
  | .error e => (.ret (some e), [], g.statusMap)
  | .ok message =>
  match g.validateStruct message with
  | .panic r => (.panic r, [], g.statusMap)
  | .ret (some e) => (.ret (some e), [], g.statusMap)
  | .ret none =>
  match message with
  | none => (.panic "nil pointer dereference: message.ReceiverId", [], g.statusMap)
  | some m =>
  match g.statusIns.GetStatus g.statusMap m.ReceiverId with
  | (.panic r, sm) => (.panic r, [], sm)
  | (.ret (.error e), sm) => (.ret (some e), [], sm)
  | (.ret (.ok data), sm) =>
    -- if data.ServerId != SERVER_ID && data.Status == "online"
    let sent : Exec (Option String) × List Event :=
      if data.ServerId ≠ g.SERVER_ID ∧ data.Status = "online" then
        (NewProducer g.kafkaProducer g.kafkaDLQ).SendMessage Context.Background
          (GoAny.messageDTO message) g.SERVER_ID
      else (.ret none, [])
    match sent with
    | (.panic r, t) => (.panic r, t, sm)
    | (.ret (some e), t) => (.ret (some e), t, sm)
    | (.ret none, t) =>
      -- if data.ServerId == SERVER_ID && data.Status == "online"
      if data.ServerId = g.SERVER_ID ∧ data.Status = "online" then
        -- the branch on !ok is empty: conn is used whatever ok says
        match (g.poolIns.GetConnTemplate data.UserRemoteAddr).1 with
        | none => (.panic "nil pointer dereference: conn.WriteMessage", t, sm)
        | some c =>
          match g.connWrite c msg with
          | some e => (.ret (some e), t ++ [Event.connWrite c msg (some e)], sm)
          | none => (.ret none, t ++ [Event.connWrite c msg none], sm)
      else
        -- if data.Status != "online": empty branch
        (.ret none, t, sm)

/-! ## gateway/utils/balancing.go -/

/-- The sentinel errors of the balancer, `fmt.Errorf("...: %w", err)`, and the
errors of other packages. -/
inductive BalancerErr where
  | ErrBalancerType
  | ErrEmptyNodes
  | ErrNodeNotFound
  | wrap (msg : String) (inner : BalancerErr)
  /-- An error value that comes from outside the package. -/
  | external (msg : String)
deriving DecidableEq, Repr

/-- The dynamic values passed as `nodes any`: a `map[string]int`, a `[]string`,
or a value of any other type. -/
inductive NodeInfo where
  | weights (m : List (String × Int))
  | list (l : List String)
  | other
deriving DecidableEq, Repr

/-- The struct `RoundRobinBalancer` (the mutex is not modelled: calls are
sequential). -/
structure RoundRobinBalancer where
  index : Int
  nodes : List String
  name : String
deriving DecidableEq, Repr

/-- The constructor `NewRoundRobinBalancer(nodes)`. -/
def NewRoundRobinBalancer (nodes : List String) : Except BalancerErr RoundRobinBalancer :=
  if nodes.length = 0 then .error .ErrEmptyNodes
  else .ok { index := 0, nodes := nodes, name := "roundrobin-balancer" }

/-- The slice access `nodes[index]` with an `int64` index: out of range panics. -/
def indexNodes (nodes : List String) (index : Int) : Exec (Except BalancerErr String) :=
  if index < 0 then .panic "index out of range"
  else
    match nodes.get? index.toNat with
    | some n => .ret (.ok n)
    | none => .panic "index out of range"

/-- The method `(*RoundRobinBalancer).Balance(key)`, run without interleaving.
`atomic.AddInt64(&r.index, 1)` stores and returns the incremented counter; `%`
is Go's truncated remainder. -/
def RoundRobinBalancer.Balance (r : RoundRobinBalancer) (_key : String) :
    Exec (Except BalancerErr String) × RoundRobinBalancer :=
  let nodesLen := r.nodes.length
  if nodesLen = 0 then (.ret (.error .ErrNodeNotFound), r)
  else
    let r1 : RoundRobinBalancer := { r with index := wrap64 (r.index + 1) }
    let index := Int.tmod r1.index (Int.ofNat nodesLen)
    if r1.nodes.length ≠ nodesLen then
      let r2 : RoundRobinBalancer := { r1 with index := wrap64 (r1.index + 1) }
      (indexNodes r2.nodes (Int.tmod r2.index (Int.ofNat r2.nodes.length)), r2)
    else (indexNodes r1.nodes index, r1)

/-- The method `(*RoundRobinBalancer).UpdateNodes(nodes)`. -/
def RoundRobinBalancer.UpdateNodes (r : RoundRobinBalancer) (nodes : NodeInfo) :
    Option BalancerErr × RoundRobinBalancer :=
  match nodes with
  | .list newNodes =>
    if newNodes.length = 0 then (some .ErrEmptyNodes, r)
    else (none, { r with nodes := newNodes, index := 0 })
  | _ =>
    (some (.wrap "roundrobin balancer requires []string node info" .ErrBalancerType), r)

/-- Sequential calls of `Balance`, one per key of the list, in order. -/
def RoundRobinBalancer.balanceSeq :
    RoundRobinBalancer → List String → List (Exec (Except BalancerErr String)) × RoundRobinBalancer
  | r, [] => ([], r)
  | r, k :: ks =>
    let step := r.Balance k
    let rest := RoundRobinBalancer.balanceSeq step.2 ks
    (step.1 :: rest.1, rest.2)

/-! ## center/utils/idgen.go -/

def timeBits : Nat := 41
def bizBits : Nat := 4
def dcBits : Nat := 3
def machineBits : Nat := 6
def seqBits : Nat := 9
def maxSeq : Int := 2 ^ seqBits - 1
def workerBits : Nat := bizBits + dcBits + machineBits
def epoch : Int := 1704067200000

/-- The struct `GeneratorID` (the mutex is not modelled: calls are sequential). -/
structure GeneratorID where
  lastTs : Int
  sequence : Int
  workerID : Int
deriving DecidableEq, Repr

/-- The constructor `NewGeneratorID(biz, dc, machine)`. -/
def NewGeneratorID (biz dc machine : Int) : Except String GeneratorID :=
  let worker :=
    or64
      (or64 (shl64 (and64 biz (2 ^ bizBits - 1)) (dcBits + machineBits))
        (shl64 (and64 dc (2 ^ dcBits - 1)) machineBits))
      (and64 machine (2 ^ machineBits - 1))
  if worker ≥ 2 ^ workerBits then .error "workerID overflow"
  else .ok { lastTs := 0, sequence := 0, workerID := worker }

/-- The returned value `(now-epoch)<<22 | g.workerID<<9 | g.sequence`. -/
def GeneratorID.pack (workerID now sequence : Int) : Int :=
  or64 (or64 (shl64 (wrap64 (now - epoch)) 22) (shl64 workerID 9)) sequence

/-- The loop `for now <= g.lastTs { now = time.Now().UnixMilli() }`. The wall
clock is the stream `clock`, read at position `tick`; `fuel` bounds the number
of readings, and `none` means the loop is still spinning when it runs out. -/
def GeneratorID.spin (clock : Nat → Int) (lastTs : Int) : Nat → Int → Nat → Option (Int × Nat)
  | 0, now, tick => if now ≤ lastTs then none else some (now, tick)
  | fuel + 1, now, tick =>
    if now ≤ lastTs then GeneratorID.spin clock lastTs fuel (clock tick) (tick + 1)
    else some (now, tick)

/-- The method `(*GeneratorID).Next()`. Every `time.Now().UnixMilli()` takes the
next reading of `clock`; `time.Sleep` takes none. The result is the ID, the
generator afterwards and the position of the next reading. -/
def GeneratorID.Next (g : GeneratorID) (clock : Nat → Int) (fuel tick : Nat) :
    Option (Int × GeneratorID × Nat) :=
  let now0 := clock tick
  -- if now < g.lastTs: sleep, then read the clock once more
  let now := if now0 < g.lastTs then clock (tick + 1) else now0
  let tick1 := if now0 < g.lastTs then tick + 2 else tick + 1
  if now = g.lastTs then
    let sequence := and64 (wrap64 (g.sequence + 1)) maxSeq
    if sequence = 0 then
      match GeneratorID.spin clock g.lastTs fuel now tick1 with
      | none => none
      | some (now2, tick2) =>
        some (GeneratorID.pack g.workerID now2 sequence,
          { g with lastTs := now2, sequence := sequence }, tick2)
    else
      some (GeneratorID.pack g.workerID now sequence,
        { g with lastTs := now, sequence := sequence }, tick1)
  else
    some (GeneratorID.pack g.workerID now 0, { g with lastTs := now, sequence := 0 }, tick1)

/-- The results of `n` sequential calls of `Next`, in order. -/
def GeneratorID.NextN (clock : Nat → Int) (fuel : Nat) :
    Nat → GeneratorID → Nat → Option (List Int × GeneratorID × Nat)
  | 0, g, tick => some ([], g, tick)
  | n + 1, g, tick =>
    match g.Next clock fuel tick with
    | none => none
    | some (id, g1, tick1) =>
      match GeneratorID.NextN clock fuel n g1 tick1 with
      | none => none
      | some (ids, g2, tick2) => some (id :: ids, g2, tick2)

/-! ## Concrete scenarios -/

/-- A valid envelope from alice to bob. -/
def sampleDTO : MessageDTO :=
  { SenderID := "alice", ReceiverId := "bob", MessageType := "text",
    Content := "hi", Time := 0, Status := "send" }

/-- The raw frame carrying `sampleDTO`. -/
def samplePayload : Bytes := [104, 105]

/-- Gateway `node-A` with every collaborator answering success: frames decode to
`sampleDTO` and pass validation, the presence cache and the registry are as
given, the shared store has no record, `connWrite` is the socket behaviour. -/
def sampleGateway (statusMap : StatusMap) (pool : Pools)
    (connWrite : Nat → Bytes → Option String) : Gateway :=
  { SERVER_ID := "node-A"
    unmarshal := fun _ => .ok (some sampleDTO)
    validateStruct := fun _ => .ret none
    statusIns := { redisGet := fun _ => .error "redis: nil" }
    statusMap := statusMap
    poolIns := pool
    connWrite := connWrite
    kafkaProducer := fun _ => none
    kafkaDLQ := fun _ => none }

/-- Presence of bob: online on `node-B`. -/
def bobOnNodeB : Meta :=
  { ServerId := "node-B", ServerAddr := "10.0.0.2", UserRemoteAddr := "bob-conn",
    Status := "online" }

/-- Presence of bob: online on `node-A`. -/
def bobOnNodeA : Meta :=
  { ServerId := "node-A", ServerAddr := "10.0.0.1", UserRemoteAddr := "bob-conn",
    Status := "online" }

/-- Presence of bob: recorded on `node-B`, not online. -/
def bobOffline : Meta :=
  { ServerId := "node-B", ServerAddr := "10.0.0.2", UserRemoteAddr := "bob-conn",
    Status := "deadline" }

/-- An empty registry of capacity 400, as built by `InitWsPool`. -/
def emptyPool : Pools := { conns := [], max := 400, cnt := 0 }

/-- A registry holding socket 7 for `bob-conn`. -/
def bobPool : Pools :=
  { conns := [("bob-conn", { Conn := some 7, clientID := "bob-conn" })], max := 400, cnt := 1 }

/-- A producer whose primary writer fails once and then succeeds; the
dead-letter writer succeeds. -/
def flakyProducer : producer :=
  { writer := fun k => if k = 0 then some "write timeout" else none
    dlq := fun _ => none }

/-- A producer whose primary writer always fails; the dead-letter writer succeeds. -/
def downProducer : producer :=
  { writer := fun _ => some "broker down"
    dlq := fun _ => none }

/-- A wall clock that reads `epoch + 100`, then `epoch + 50`, then stays at
`epoch + 60`. -/
def rollbackClock : Nat → Int := fun i => epoch + [100, 50].getD i 60

/-- A wall clock advancing one millisecond every second reading, for 1000 ms. -/
def steadyClock : Nat → Int := fun i => epoch + Int.ofNat (min i 2000 / 2)

/-! ## Reading the fields of an ID -/

/-- Go `a >> k` on `int64` (arithmetic shift). -/
def shr64 (a : Int) (k : Nat) : Int := a / 2 ^ k

/-! ## gateway/utils/pools.go: registration -/

/-- The constructor `NewWsPool(maxConn)`. -/
def NewWsPool (maxConn : Nat) : Pools := { conns := [], max := maxConn, cnt := 0 }

/-- The method `(*Pools).AddConnTemplate(clientId, conn)`: `conns.Store` replaces
an entry of the same key, `atomic.AddUint32(&p.cnt, 1)` wraps at `2^32`. -/
def Pools.AddConnTemplate (p : Pools) (clientId : String) (conn : Option Nat) :
    Option String × Pools :=
  if p.cnt ≥ p.max then (some "connection pool full", p)
  else
    (none,
      { p with
        conns := (clientId, { Conn := conn, clientID := clientId })
          :: p.conns.filter (fun kv => !(kv.1 == clientId))
        cnt := (p.cnt + 1) % 2 ^ 32 })

/-- The method `(*Pools).ReleaseConnTemplate(clientId)`: when `LoadAndDelete`
finds the key, `atomic.AddUint32(&p.cnt, ^uint32(0))` adds `2^32 - 1` modulo
`2^32`. -/
def Pools.ReleaseConnTemplate (p : Pools) (clientId : String) : Pools :=
  match p.conns.find? (fun kv => kv.1 == clientId) with
  | some _ =>
    { p with
      conns := p.conns.filter (fun kv => !(kv.1 == clientId))
      cnt := (p.cnt + (2 ^ 32 - 1)) % 2 ^ 32 }
  | none => p

/-- The method `(*Pools).CloseWsPools()`, as far as the registry state goes. -/
def Pools.CloseWsPools (p : Pools) : Pools := { p with conns := [], cnt := 0 }

/-- One call on the registry. -/
inductive PoolOp where
  | add (clientId : String) (conn : Option Nat)
  | release (clientId : String)
  | close
deriving DecidableEq, Repr

/-- The registry after one call. -/
def Pools.step (p : Pools) : PoolOp → Pools
  | .add clientId conn => (p.AddConnTemplate clientId conn).2
  | .release clientId => p.ReleaseConnTemplate clientId
  | .close => p.CloseWsPools

/-- The registry after a sequence of calls, in order. -/
def Pools.run (p : Pools) (ops : List PoolOp) : Pools := ops.foldl Pools.step p

/-- Sequential `AddConnTemplate` calls, one per entry: the errors returned, in
order, and the registry afterwards. -/
def Pools.addAll : Pools → List (String × Option Nat) → List (Option String) × Pools
  | p, [] => ([], p)
  | p, e :: es =>
    let first := p.AddConnTemplate e.1 e.2
    let rest := Pools.addAll first.2 es
    (first.1 :: rest.1, rest.2)

/-! ## gateway/service/receive.go -/

/-- A record of the broker, `kafka.Message`. -/
structure KafkaMessage where
  Key : String
  Value : Bytes
  Offset : Nat
deriving DecidableEq, Repr

/-- Effects of the inbound dispatcher, in program order. -/
inductive ReadEvent where
  /-- `r.dlq.WriteMessages(ctx, msg)` and the error it answered with. -/
  | dlqWrite (msg : KafkaMessage) (err : Option String)
  /-- `utils.StatusTemplate().GetStatus(uid)`: a presence lookup. -/
  | getStatus (uid : String)
  /-- `utils.PoolsOpsTemplate().GetConnTemplate(clientId)`: a registry lookup. -/
  | getConn (clientId : String)
  /-- `conn.WriteMessage(websocket.TextMessage, data)` on a local socket. -/
  | connWrite (conn : Nat) (data : Bytes) (err : Option String)
  /-- `r.reader.CommitMessages(ctx, msg)`. -/
  | commit (msg : KafkaMessage)
deriving DecidableEq, Repr

/-- Is the event a dead-letter publish? -/
def ReadEvent.isDlqWrite : ReadEvent → Bool
  | .dlqWrite _ _ => true
  | _ => false

/-- Is the event a write to a local socket? -/
def ReadEvent.isConnWrite : ReadEvent → Bool
  | .connWrite _ _ _ => true
  | _ => false

/-- Is the event a commit? -/
def ReadEvent.isCommit : ReadEvent → Bool
  | .commit _ => true
  | _ => false

/-- Is the event a presence lookup or a registry lookup? -/
def ReadEvent.isLookup : ReadEvent → Bool
  | .getStatus _ => true
  | .getConn _ => true
  | _ => false

/-- The struct `receviceMessage`: the reader (`none` for a nil pointer), given
by the result of its `k`-th `ReadMessage`, and the dead-letter writer, given by
the error of its `k`-th `WriteMessages`. -/
structure receviceMessage where
  reader : Option (Nat → Except String KafkaMessage)
  dlq : Nat → Option String

/-- What `StartReadMessage` reads besides its receiver: the singletons of the
gateway process, the collaborators and the cancellation of its context. -/
structure ReadEnv where
  /-- The call `json.Unmarshal(msg.Value, &message)`: the error, and the pointer
  `message` after the call. -/
  unmarshal : Bytes → Option String × Option MessageDTO
  /-- The singleton returned by `utils.StatusTemplate()`. -/
  statusIns : status
  /-- The singleton returned by `utils.PoolsOpsTemplate()`. -/
  poolIns : Pools
  /-- The call `conn.WriteMessage(websocket.TextMessage, data)` on a live socket. -/
  connWrite : Nat → Bytes → Option String
  /-- Whether `ctx.Done()` is closed at the `select` of iteration `k`. -/
  doneAt : Nat → Bool
  /-- Whether `ctx.Err() != nil` after the failed read of iteration `k`. -/
  doneAfterRead : Nat → Bool
  /-- The value of `ctx.Err()` once cancelled. -/
  ctxErr : String

/-- The part of one iteration of `StartReadMessage` that follows a successful
`ReadMessage`, from the decoding to the commit. `d` counts the calls made on
the dead-letter writer so far. None of the three failure branches leaves the
iteration. -/
def receviceMessage.dispatch (r : receviceMessage) (env : ReadEnv) (msg : KafkaMessage)
    (statusMap : StatusMap) (d : Nat) : Exec Unit × List ReadEvent × StatusMap × Nat :=
  let decoded := env.unmarshal msg.Value
  -- if err = json.Unmarshal(...); err != nil: write to the dead-letter writer
  let t1 : List ReadEvent :=
    if decoded.1.isSome then [ReadEvent.dlqWrite msg (r.dlq d)] else []
  let d1 : Nat := if decoded.1.isSome then d + 1 else d
  match decoded.2 with
  | none => (.panic "nil pointer dereference: message.ReceiverId", t1, statusMap, d1)
  | some message =>
    let t2 := t1 ++ [ReadEvent.getStatus message.ReceiverId]
    match env.statusIns.GetStatus statusMap message.ReceiverId with
    | (.panic reason, sm) => (.panic reason, t2, sm, d1)
    | (.ret looked, sm) =>
      -- if err != nil: write to the dead-letter writer; meta is then the zero Meta
      let meta : Meta :=
        match looked with
        | .ok m => m
        | .error _ => { ServerId := "", ServerAddr := "", UserRemoteAddr := "", Status := "" }
      let t3 : List ReadEvent :=
        match looked with
        | .ok _ => t2
        | .error _ => t2 ++ [ReadEvent.dlqWrite msg (r.dlq d1)]
      let d2 : Nat :=
        match looked with
        | .ok _ => d1
        | .error _ => d1 + 1
      let got := env.poolIns.GetConnTemplate meta.UserRemoteAddr
      let t4 := t3 ++ [ReadEvent.getConn meta.UserRemoteAddr]
      -- if !ok: write to the dead-letter writer
      let t5 : List ReadEvent := if got.2 then t4 else t4 ++ [ReadEvent.dlqWrite msg (r.dlq d2)]
      let d3 : Nat := if got.2 then d2 else d2 + 1
      match got.1 with
      | none => (.panic "nil pointer dereference: conn.WriteMessage", t5, sm, d3)
      | some c =>
        (.ret (),
          t5 ++ [ReadEvent.connWrite c msg.Value (env.connWrite c msg.Value),
                 ReadEvent.commit msg],
          sm, d3)

/-- The loop of `StartReadMessage`, at iteration `k`, for at most `fuel`
iterations. The outcome is `none` while the loop is still running when the
fuel is spent. -/
def receviceMessage.readLoop (r : receviceMessage) (env : ReadEnv)
    (read : Nat → Except String KafkaMessage) :
    Nat → Nat → StatusMap → Nat → Option (Exec (Option String)) × List ReadEvent × StatusMap
  | 0, _, statusMap, _ => (none, [], statusMap)
  | fuel + 1, k, statusMap, d =>
    if env.doneAt k then (some (.ret (some env.ctxErr)), [], statusMap)
    else
      match read k with
      | .error _ =>
        if env.doneAfterRead k then (some (.ret (some env.ctxErr)), [], statusMap)
        else receviceMessage.readLoop r env read fuel (k + 1) statusMap d
      | .ok msg =>
        match r.dispatch env msg statusMap d with
        | (.panic reason, t, sm, _) => (some (.panic reason), t, sm)
        | (.ret _, t, sm, d') =>
          let rest := receviceMessage.readLoop r env read fuel (k + 1) sm d'
          (rest.1, t ++ rest.2.1, rest.2.2)

/-- The method `(*receviceMessage).StartReadMessage(ctx, nodeId)`, run for at
most `fuel` iterations. The argument `nodeId` is not used by the body. -/
def receviceMessage.StartReadMessage (r : receviceMessage) (env : ReadEnv) (_nodeId : String)
    (statusMap : StatusMap) (fuel : Nat) :
    Option (Exec (Option String)) × List ReadEvent × StatusMap :=
  match r.reader with
  | none => (some (.ret (some "kafka reader is nil")), [], statusMap)
  | some read => r.readLoop env read fuel 0 statusMap 0

/-- A dispatcher environment on top of a presence cache and a registry: frames
decode to `sampleDTO`, the shared store has no record, sockets accept every
write, the context is never cancelled. -/
def sampleReadEnv (pool : Pools) : ReadEnv :=
  { unmarshal := fun _ => (none, some sampleDTO)
    statusIns := { redisGet := fun _ => .error "redis: nil" }
    poolIns := pool
    connWrite := fun _ _ => none
    doneAt := fun _ => false
    doneAfterRead := fun _ => false
    ctxErr := "context canceled" }

/-- A record carrying `samplePayload`. -/
def sampleRecord : KafkaMessage := { Key := "node-A", Value := samplePayload, Offset := 0 }

/-- A receiver whose reader delivers `sampleRecord` once and then times out, and
whose dead-letter writer succeeds. -/
def sampleReceiver : receviceMessage :=
  { reader := some (fun k => if k = 0 then .ok sampleRecord else .error "deadline exceeded")
    dlq := fun _ => none }

/-- The dispatcher environment of a record that is not valid JSON: the decoder
answers a syntax error and leaves the pointer `message` nil. -/
def brokenJsonEnv : ReadEnv :=
  { sampleReadEnv emptyPool with unmarshal := fun _ => (some "invalid character", none) }

/-- The dispatcher environment of a record with a field of the wrong JSON type:
the decoder answers a type error after allocating and partly filling `message`. -/
def mistypedJsonEnv : ReadEnv :=
  { sampleReadEnv emptyPool with
    unmarshal := fun _ => (some "cannot unmarshal number into Go struct field", some sampleDTO) }

/-- A `status` service whose shared store holds a record for bob only. -/
def bobInStore : status :=
  { redisGet := fun key => if key = "status:bob" then .ok "node-B|online" else .error "redis: nil" }

/-! ## signal/services/generator.go -/

/-- The shared counter store (redis), as an association list of counters. -/
abbrev CounterStore := List (String × Int)

/-- The value of a counter; a key that was never incremented counts as 0. -/
def CounterStore.value (store : CounterStore) (key : String) : Int :=
  ((store.find? (fun kv => kv.1 == key)).map (fun kv => kv.2)).getD 0

/-- The redis command `INCR key` on a reachable store: the new value, or the
overflow error when the counter is at the largest `int64`. -/
def CounterStore.Incr (store : CounterStore) (key : String) : Except String Int × CounterStore :=
  if store.value key ≥ 2 ^ 63 - 1 then (.error "ERR increment or decrement would overflow", store)
  else
    (.ok (store.value key + 1),
      (key, store.value key + 1) :: store.filter (fun kv => !(kv.1 == key)))

/-- The struct `IDGenerator`, as far as `GenerateSeq` goes: its redis client is
reachable (`none`) or fails every command with an error. -/
structure IDGenerator where
  redisDown : Option String

/-- The key `fmt.Sprintf("seq:%s:%s", senderID, receiverID)`. -/
def seqKey (senderID receiverID : String) : String := "seq:" ++ senderID ++ ":" ++ receiverID

/-- The method `(*IDGenerator).GenerateSeq(senderID, receiverID)`: the pair it
returns and the store afterwards. -/
def IDGenerator.GenerateSeq (g : IDGenerator) (store : CounterStore)
    (senderID receiverID : String) : (Int × Option String) × CounterStore :=
  let key := seqKey senderID receiverID
  match g.redisDown with
  | some e => ((0, some e), store)
  | none =>
    match store.Incr key with
    | (.error e, store1) => ((0, some e), store1)
    | (.ok seq, store1) => ((seq, none), store1)

/-! ## gateway/utils/gRPC_pool.go -/

/-- The struct `GRPCClientConfig`, durations in nanoseconds (the certificate
paths and the server name play no part in the pool's bookkeeping). -/
structure GRPCClientConfig where
  MaxConn : Int
  Timeout : Int
  Addr : String
  TLS : Bool
  KeepAliveTime : Int
  KeepAliveTimeout : Int
  IdleTimeout : Int
deriving DecidableEq, Repr

/-- A pooled channel `grpcConnection`: the `*grpc.ClientConn` (an identity,
`none` for nil), the in-use mark and the time of last use. -/
structure grpcConnection where
  conn : Option Nat
  inUse : Bool
  lastUsed : Int
deriving DecidableEq, Repr

/-- The struct `grpcClientPool`: the map from address to channel list and the
configuration. The locks are not fields: a definition below is either a whole
call run without another call in between, or one stretch between two points
at which the pool lock is free. Ticker and stop channel are not modelled. -/
structure grpcClientPool where
  connections : String → Option (List grpcConnection)
  config : GRPCClientConfig

/-- The duration `time.Second`. -/
def timeSecond : Int := 1000000000

/-- The defaults `NewgRPCWorkPool` writes into the configuration. -/
def GRPCClientConfig.withDefaults (c : GRPCClientConfig) : GRPCClientConfig :=
  { c with
    MaxConn := if c.MaxConn ≤ 0 then 10 else c.MaxConn
    Timeout := if c.Timeout ≤ 0 then 10 * timeSecond else c.Timeout
    KeepAliveTime := if c.KeepAliveTime ≤ 0 then 30 * timeSecond else c.KeepAliveTime
    KeepAliveTimeout := if c.KeepAliveTimeout ≤ 0 then 5 * timeSecond else c.KeepAliveTimeout
    IdleTimeout := if c.IdleTimeout ≤ 0 then 5 * 60 * timeSecond else c.IdleTimeout }

/-- The constructor `NewgRPCWorkPool(config)`; `none` is a nil configuration. -/
def NewgRPCWorkPool (config : Option GRPCClientConfig) : Except String grpcClientPool :=
  match config with
  | none => .error "grpc client config cannot be nil"
  | some c =>
    if c.Addr = "" then .error "server address cannot be empty"
    else .ok { connections := fun _ => none, config := c.withDefaults }

/-- What one call of `GetConnection` gets from outside: the reading of
`time.Now()`, the error of `loadTLS` (if any) and the result of `grpc.Dial`. -/
structure DialIO where
  now : Int
  loadTLS : Option String
  dial : Except String Nat

/-- The method `(*grpcClientPool).createConnection(addr)`. -/
def grpcClientPool.createConnection (p : grpcClientPool) (io : DialIO) (addr : String) :
    Except String grpcConnection :=
  match (if p.config.TLS then io.loadTLS else none) with
  | some e => .error e
  | none =>
    match io.dial with
    | .error e => .error ("failed to connect to " ++ addr ++ ": " ++ e)
    | .ok c => .ok { conn := some c, inUse := false, lastUsed := io.now }

/-- The loop `for _, conn := range connections` of `GetConnection`: the first
channel that is not in use is marked in use and its `conn` returned. -/
def acquireIdle (now : Int) : List grpcConnection → Option (Option Nat × List grpcConnection)
  | [] => none
  | c :: cs =>
    if !c.inUse then some (c.conn, { c with inUse := true, lastUsed := now } :: cs)
    else (acquireIdle now cs).map (fun r => (r.1, c :: r.2))

/-- The assignment `p.connections[addr] = list`. -/
def grpcClientPool.setConnections (p : grpcClientPool) (addr : String)
    (list : List grpcConnection) : grpcClientPool :=
  { p with connections := fun a => if a = addr then some list else p.connections a }

/-- The method `(*grpcClientPool).GetConnection(addr)`, run without another call
in between. -/
def grpcClientPool.GetConnection (p : grpcClientPool) (io : DialIO) (addr : String) :
    Except String (Option Nat) × grpcClientPool :=
  match p.connections addr with
  | some connections =>
    match acquireIdle io.now connections with
    | some (conn, marked) => (.ok conn, p.setConnections addr marked)
    | none =>
      if Int.ofNat connections.length < p.config.MaxConn then
        match p.createConnection io addr with
        | .error e => (.error e, p)
        | .ok newConn =>
          (.ok newConn.conn,
            p.setConnections addr
              (connections ++ [{ newConn with inUse := true, lastUsed := io.now }]))
      else (.error "all connections are in use and max connection limit reached", p)
  | none =>
    match p.createConnection io addr with
    | .error e => (.error e, p)
    | .ok newConn =>
      (.ok newConn.conn,
        p.setConnections addr [{ newConn with inUse := true, lastUsed := io.now }])

/-- The method `(*grpcClientPool).GetConnectionCount(addr)`. -/
def grpcClientPool.GetConnectionCount (p : grpcClientPool) (addr : String) : Nat :=
  match p.connections addr with
  | none => 0
  | some connections => connections.length

/-- Sequential calls of `GetConnection`, one per request: the pool afterwards. -/
def grpcClientPool.getSeq : grpcClientPool → List (String × DialIO) → grpcClientPool
  | p, [] => p
  | p, req :: rest => grpcClientPool.getSeq (p.GetConnection req.2 req.1).2 rest

/-- A configuration for the address `10.0.0.9:50051` with two channels at most. -/
def sampleGrpcConfig : GRPCClientConfig :=
  { MaxConn := 2, Timeout := 0, Addr := "10.0.0.9:50051", TLS := false, KeepAliveTime := 0,
    KeepAliveTimeout := 0, IdleTimeout := 0 }

/-- The pool `NewgRPCWorkPool` builds from `sampleGrpcConfig`. -/
def samplePool : grpcClientPool :=
  { connections := fun _ => none, config := sampleGrpcConfig.withDefaults }

/-- A call at time 1 whose dial succeeds with channel 101. -/
def sampleDial : DialIO := { now := 1, loadTLS := none, dial := .ok 101 }

/-! ## gateway/utils/balancing.go: hash balancer and factory -/

/-- The test `errors.Is(err, target)` on balancer errors. -/
def BalancerErr.Is : BalancerErr → BalancerErr → Bool
  | .wrap msg inner, target => (BalancerErr.wrap msg inner == target) || inner.Is target
  | .ErrBalancerType, target => BalancerErr.ErrBalancerType == target
  | .ErrEmptyNodes, target => BalancerErr.ErrEmptyNodes == target
  | .ErrNodeNotFound, target => BalancerErr.ErrNodeNotFound == target
  | .external msg, target => BalancerErr.external msg == target

/-- A `ketama.Continuum` of the library `go-ketama`, given by its method `Hash`. -/
structure Continuum where
  Hash : String → String

/-- The struct `HashBalancer`; `continuum` is a pointer and may be nil. -/
structure HashBalancer where
  continuum : Option Continuum
  name : String

/-- The constructor `NewHashBalancer(nodes)`. The library call `ketama.New` is
the parameter `ketamaNew`, applied to the node-to-weight map. -/
def NewHashBalancer (ketamaNew : List (String × Int) → Except String (Option Continuum))
    (nodes : List (String × Int)) : Except BalancerErr HashBalancer :=
  if nodes.length = 0 then .error .ErrEmptyNodes
  else
    match ketamaNew nodes with
    | .error e => .error (.wrap "failed to create ketama continuum" (.external e))
    | .ok continuum => .ok { continuum := continuum, name := "hash-balancer" }

/-- A value of the interface `Balancer`: one of its two implementations. -/
inductive Balancer where
  | hash (h : HashBalancer)
  | roundRobin (r : RoundRobinBalancer)

/-- The factory `NewBalancer(typ, nodeInfo)`. -/
def NewBalancer (ketamaNew : List (String × Int) → Except String (Option Continuum))
    (typ : String) (nodeInfo : NodeInfo) : Except BalancerErr Balancer :=
  if typ = "hash" then
    match nodeInfo with
    | .weights nodes => (NewHashBalancer ketamaNew nodes).map Balancer.hash
    | _ => .error (.wrap "hash balancer requires map[string]int node info" .ErrBalancerType)
  else if typ = "roundrobin" then
    match nodeInfo with
    | .list nodes => (NewRoundRobinBalancer nodes).map Balancer.roundRobin
    | _ => .error (.wrap "roundrobin balancer requires []string node info" .ErrBalancerType)
  else .error (.wrap ("unsupported balancer type: " ++ typ) .ErrBalancerType)

/-! ## gateway/utils/balancing.go: hash balancer methods -/

/-- The method `(*HashBalancer).Balance(key)`. It reads the continuum and
writes no field of the balancer. -/
def HashBalancer.Balance (h : HashBalancer) (key : String) : Except BalancerErr String :=
  match h.continuum with
  | none => .error .ErrNodeNotFound
  | some continuum =>
    let node := continuum.Hash key
    if node = "" then .error .ErrNodeNotFound else .ok node

/-- The method `(*HashBalancer).UpdateNodes(nodes)`, with the library call
`ketama.New` as the parameter `ketamaNew`. -/
def HashBalancer.UpdateNodes (h : HashBalancer)
    (ketamaNew : List (String × Int) → Except String (Option Continuum))
    (nodes : NodeInfo) : Option BalancerErr × HashBalancer :=
  match nodes with
  | .weights newNodes =>
    if newNodes.length = 0 then (some .ErrEmptyNodes, h)
    else
      match ketamaNew newNodes with
      | .error e => (some (.wrap "failed to create new ketama continuum" (.external e)), h)
      | .ok newContinuum => (none, { h with continuum := newContinuum })
  | _ => (some (.wrap "hash balancer requires map[string]int node info" .ErrBalancerType), h)

/-! ## gateway/config/kafka.go and its callers -/

/-- The struct `KafkaConf`. -/
structure KafkaConf where
  Brokers : List String
  Topic : String
  RequiredAcks : Int
  MaxRetry : Int
  GroupId : String
  DLQTopic : String
deriving DecidableEq, Repr

/-- The package variables `producer`, `consumer`, `dlqWriter` and `kafkaOnce`:
each client is given by the topic it was created with (`none` for nil). -/
structure KafkaClients where
  producer : Option String
  consumer : Option String
  dlqWriter : Option String
  onceDone : Bool
deriving DecidableEq, Repr

/-- The package state before `NewKafak` has run. -/
def KafkaClients.initial : KafkaClients :=
  { producer := none, consumer := none, dlqWriter := none, onceDone := false }

/-- The function `NewKafak(conf)`: the body runs once. -/
def NewKafak (st : KafkaClients) (conf : KafkaConf) : KafkaClients :=
  if st.onceDone then st
  else
    { producer := some conf.Topic
      consumer := some conf.Topic
      dlqWriter := if conf.DLQTopic ≠ "" then some (conf.Topic ++ conf.DLQTopic) else st.dlqWriter
      onceDone := true }

/-- The kafka section of the gateway configuration (`GatewayCfg`), with
`TopicSuffix` for `Dlq.TopicSuffix`. -/
structure KafkaSettings where
  Brokers : String
  Topic : String
  GroupID : String
  RequiredAcks : Int
  MaxRetries : Int
  TopicSuffix : String
deriving DecidableEq, Repr

/-- The `KafkaConf` built by `main` in gateway/main.go: `DLQTopic` is the local
variable `dlqTopic`, the topic followed by the suffix. -/
def mainKafkaConf (cfg : KafkaSettings) : KafkaConf :=
  { Brokers := [cfg.Brokers]
    Topic := cfg.Topic
    GroupId := cfg.GroupID
    RequiredAcks := cfg.RequiredAcks
    DLQTopic := cfg.Topic ++ cfg.TopicSuffix
    MaxRetry := cfg.MaxRetries }

/-- The `KafkaConf` built by `TestKafka`: `DLQTopic` is the suffix alone. -/
def testKafkaConf (cfg : KafkaSettings) : KafkaConf :=
  { Brokers := [cfg.Brokers]
    Topic := cfg.Topic
    RequiredAcks := cfg.RequiredAcks
    MaxRetry := cfg.MaxRetries
    GroupId := cfg.GroupID
    DLQTopic := cfg.TopicSuffix }

/-- A gateway configuration with topic `im-message` and suffix `-dlq`. -/
def sampleKafkaSettings : KafkaSettings :=
  { Brokers := "127.0.0.1:9092", Topic := "im-message", GroupID := "gateway", RequiredAcks := 1,
    MaxRetries := 3, TopicSuffix := "-dlq" }

/-- A context that is cancelled from the start, on a run where the `select` of
the zero-length first wait picks the timer case. -/
def cancelledTimerFirst : Context :=
  { doneBy := fun _ => true, timerFirst := true, err := "context canceled" }

/-! ## Validation of gateway/dto/message.go -/

/-- The `validate` tag of the field `MessageType`, `required, oneof=text image
file video audio`, cut at its commas as the validator cuts it. The tag has a
space after the comma, so the second part starts with a space. -/
def messageTypeTag : List String := ["required", " oneof=text image file video audio"]

/-- The `validate` tag of the field `Status`, `required, oneof=send withdraw`,
cut at its commas; the second part starts with a space. -/
def statusTag : List String := ["required", " oneof=send withdraw"]

/-- The fields of `MessageDTO` that carry a `validate` tag, in the order of
declaration: name, tag parts, value. `SenderID`, `ReceiverId`, `Content` and
`Time` carry none. -/
def taggedFields : List (String × List String × (MessageDTO → String)) :=
  [("MessageType", messageTypeTag, fun m => m.MessageType),
   ("Status", statusTag, fun m => m.Status)]

/-- The rule a tag part names: the text before the first `=`. Nothing is
trimmed. -/
def ruleName (part : String) : String :=
  String.mk (part.data.takeWhile (fun ch => ch != '='))

/-- The parameter of a tag part: the text after the first `=`. -/
def ruleParam (part : String) : String :=
  String.mk ((part.data.dropWhile (fun ch => ch != '=')).drop 1)

/-- The rules registered by `validator.New()` that the tags of `MessageDTO`
could name. No registered rule has a name that starts with a space. -/
def registeredRules : List String := ["required", "oneof"]

/-- The words of a `oneof` parameter, separated by spaces. -/
def oneofWords : List Char → List Char → List String
  | [], [] => []
  | cur, [] => [String.mk cur]
  | cur, ch :: rest =>
    if ch = ' ' then
      if cur = [] then oneofWords [] rest else String.mk cur :: oneofWords [] rest
    else oneofWords (cur ++ [ch]) rest

/-- Whether a value passes a registered rule: `required` wants a non-empty
string, `oneof` one of the listed words. -/
def rulePasses (value part : String) : Bool :=
  if ruleName part = "required" then value != ""
  else (oneofWords [] (ruleParam part).data).contains value

/-- The first tag part of `MessageDTO` that names no registered rule, with its
field. The validator looks every part up when it first meets the struct type,
before it checks any value. -/
def undefinedRule : Option (String × String) :=
  (taggedFields.flatMap (fun f => f.2.1.map (fun part => (f.1, ruleName part)))).find?
    (fun fr => !(registeredRules.contains fr.2))

/-- The call `validate.Struct(message)` of websocket_server.go, with
`validate = validator.New()`, on a `*dto.MessageDTO`. A nil pointer is answered
with an error. For a struct the tags are read first, and a part that names no
registered rule panics; only then are the values checked against the rules. -/
def validate.Struct : Option MessageDTO → Exec (Option String)
  | none => .ret (some "validator: (nil *dto.MessageDTO)")
  | some m =>
    match undefinedRule with
    | some (field, name) =>
      .panic ("Undefined validation function " ++ name ++ " on field " ++ field)
    | none =>
      match (taggedFields.flatMap (fun f => f.2.1.map (fun part => (f.1, part, f.2.2 m)))).find?
          (fun x => !(rulePasses x.2.2 x.2.1)) with
      | some (field, part, _) =>
        .ret (some (field ++ " failed on the " ++ ruleName part ++ " tag"))
      | none => .ret none

/-- The frame that carries `sampleDTO`: the JSON object with `sender_id` alice,
`receiver_id` bob, `message_type` text, `content` hi, `time` 0, `status` send. -/
def envelopeFrame : Bytes :=
  [123, 34, 115, 101, 110, 100, 101, 114, 95, 105, 100, 34, 58, 34, 97, 108, 105, 99, 101, 34,
   44, 34, 114, 101, 99, 101, 105, 118, 101, 114, 95, 105, 100, 34, 58, 34, 98, 111, 98, 34, 44,
   34, 109, 101, 115, 115, 97, 103, 101, 95, 116, 121, 112, 101, 34, 58, 34, 116, 101, 120, 116,
   34, 44, 34, 99, 111, 110, 116, 101, 110, 116, 34, 58, 34, 104, 105, 34, 44, 34, 116, 105,
   109, 101, 34, 58, 48, 44, 34, 115, 116, 97, 116, 117, 115, 34, 58, 34, 115, 101, 110, 100,
   34, 125]

/-- An envelope whose `message_type` is none of the listed values. -/
def stickerDTO : MessageDTO := { sampleDTO with MessageType := "sticker" }

/-- The frame that carries `stickerDTO`: as `envelopeFrame`, with `message_type`
sticker. -/
def stickerFrame : Bytes :=
  [123, 34, 115, 101, 110, 100, 101, 114, 95, 105, 100, 34, 58, 34, 97, 108, 105, 99, 101, 34,
   44, 34, 114, 101, 99, 101, 105, 118, 101, 114, 95, 105, 100, 34, 58, 34, 98, 111, 98, 34, 44,
   34, 109, 101, 115, 115, 97, 103, 101, 95, 116, 121, 112, 101, 34, 58, 34, 115, 116, 105, 99,
   107, 101, 114, 34, 44, 34, 99, 111, 110, 116, 101, 110, 116, 34, 58, 34, 104, 105, 34, 44,
   34, 116, 105, 109, 101, 34, 58, 48, 44, 34, 115, 116, 97, 116, 117, 115, 34, 58, 34, 115,
   101, 110, 100, 34, 125]

/-- An envelope with an empty `receiver_id` and an empty `status`. -/
def blankDTO : MessageDTO :=
  { SenderID := "alice", ReceiverId := "", MessageType := "text", Content := "hi", Time := 0,
    Status := "" }

/-- The result of `json.Unmarshal(msg, &message)` on the two frames above; other
frames are not decoded here. -/
def decodeFrame (msg : Bytes) : Except String (Option MessageDTO) :=
  if msg = envelopeFrame then .ok (some sampleDTO)
  else if msg = stickerFrame then .ok (some stickerDTO)
  else .error "invalid character"

/-- Gateway `node-A` as it runs: frames are decoded by `decodeFrame` and
validated by `validate.Struct`; the presence cache and the registry are as
given, the shared store has no record, sockets and kafka writers succeed. -/
def nodeAGateway (statusMap : StatusMap) (pool : Pools) : Gateway :=
  { sampleGateway statusMap pool (fun _ _ => none) with
    unmarshal := decodeFrame
    validateStruct := validate.Struct }

/-! ## signal/services/generator.go: initialisation -/

/-- The package variables `inst` and `once`. -/
structure GeneratorSingleton where
  inst : Option IDGenerator
  onceDone : Bool

/-- The package state before `InitGenerator` has run. -/
def GeneratorSingleton.initial : GeneratorSingleton := { inst := none, onceDone := false }

/-- The constructor `NewIDGenerator(machineId, redis)`. The library call
`snowflake.NewNode` is the parameter `newNode`; the node itself plays no part
in what follows. -/
def NewIDGenerator (newNode : Int → Except String Unit) (machineId : Int)
    (redisDown : Option String) : Except String IDGenerator :=
  match newNode machineId with
  | .error e => .error e
  | .ok _ => .ok { redisDown := redisDown }

/-- The function `InitGenerator(machineId, redis)`. The closure given to
`once.Do` declares its own `generator, err :=`; the `err` that is returned is
the outer variable, which nothing assigns. -/
def InitGenerator (newNode : Int → Except String Unit) (st : GeneratorSingleton)
    (machineId : Int) (redisDown : Option String) : Option String × GeneratorSingleton :=
  if st.onceDone then (none, st)
  else
    match NewIDGenerator newNode machineId redisDown with
    | .error _ => (none, { st with onceDone := true })
    | .ok generator => (none, { inst := some generator, onceDone := true })

/-- The function `GeneratorFactory()`. -/
def GeneratorFactory (st : GeneratorSingleton) : Option IDGenerator := st.inst

/-- A node constructor with the range check of the snowflake library: node
numbers from 0 to 1023. -/
def rangeCheckedNode (n : Int) : Except String Unit :=
  if n < 0 ∨ n > 1023 then .error "Node number must be between 0 and 1023" else .ok ()

/-! ## gateway/utils/gRPC_pool.go: idle reaper -/

/-- The test `!conn.inUse && time.Since(conn.lastUsed) > p.config.IdleTimeout`,
with `now` the clock reading taken for this channel. -/
def grpcConnection.idleExpired (c : grpcConnection) (idleTimeout now : Int) : Bool :=
  !c.inUse && decide (now - c.lastUsed > idleTimeout)

/-- The inner loop of one reaper pass over the channels of one address, from
the channel at position `i`: `active` is the slice `activeConnections` built so
far and `closed` lists the connections closed so far. `now j` is the clock
reading taken when the channel at position `j` is tested. -/
def reapLoop (idleTimeout : Int) (now : Nat → Int) :
    Nat → List grpcConnection → List grpcConnection → List Nat → List grpcConnection × List Nat
  | _, [], active, closed => (active, closed)
  | i, c :: rest, active, closed =>
    if c.idleExpired idleTimeout (now i) then
      -- if conn.conn != nil: conn.conn.Close()
      reapLoop idleTimeout now (i + 1) rest active
        (match c.conn with
          | some id => closed ++ [id]
          | none => closed)
    else reapLoop idleTimeout now (i + 1) rest (active ++ [c]) closed

/-- One pass of `cleanupIdleConnections` (the case `<-p.cleanupTicker.C`): every
address of the map is visited once; its list becomes the active channels, and
the address is deleted when none is left. `now addr j` is the clock reading
taken for channel `j` of `addr`. -/
def grpcClientPool.cleanupPass (p : grpcClientPool) (now : String → Nat → Int) :
    grpcClientPool :=
  { p with
    connections := fun addr =>
      match p.connections addr with
      | none => none
      | some connections =>
        let active := (reapLoop p.config.IdleTimeout (now addr) 0 connections [] []).1
        if active.length = 0 then none else some active }

/-- The connections closed for `addr` by one pass of the reaper, in order. -/
def grpcClientPool.cleanupClosed (p : grpcClientPool) (now : String → Nat → Int)
    (addr : String) : List Nat :=
  match p.connections addr with
  | none => []
  | some connections => (reapLoop p.config.IdleTimeout (now addr) 0 connections [] []).2

/-- A pool with three channels for one address: one in use, one idle since time
0, one idle since time 90; the idle timeout is 50. -/
def agedPool : grpcClientPool :=
  { connections := fun a =>
      if a = "10.0.0.9:50051" then
        some [{ conn := some 1, inUse := true, lastUsed := 0 },
              { conn := some 2, inUse := false, lastUsed := 0 },
              { conn := some 3, inUse := false, lastUsed := 90 }]
      else none
    config := { sampleGrpcConfig with IdleTimeout := 50 } }

/-- The claim's description of the channels one pass keeps for an address: the
channels that are in use or whose last use is not older than the idle timeout
when they are tested, in their original order. -/
def keptByClaim (idleTimeout : Int) (now : Nat → Int) (l : List grpcConnection) :
    List grpcConnection :=
  ((l.enumFrom 0).filter
    (fun ic => ic.2.inUse || !(decide (now ic.1 - ic.2.lastUsed > idleTimeout)))).map Prod.snd

/-- The claim's description of the channels one pass removes for an address:
the channels that are not in use and whose last use is older than the idle
timeout when they are tested. -/
def removedByClaim (idleTimeout : Int) (now : Nat → Int) (l : List grpcConnection) :
    List grpcConnection :=
  ((l.enumFrom 0).filter
    (fun ic => !ic.2.inUse && decide (now ic.1 - ic.2.lastUsed > idleTimeout))).map Prod.snd

/-! ## gateway/utils/gRPC_pool.go: GetConnection between its critical sections -/

/-- Where one call of `GetConnection` stands. The pool lock `p.mu` is released
between these points, so another call can run there. -/
inductive GetCall where
  /-- Before the first `p.mu.RLock()`. -/
  | start : GetCall
  /-- The loop has found every channel in use; before the `p.mu.RLock()` that
  guards the test `len(p.connections[addr]) < p.config.MaxConn`. -/
  | room : GetCall
  /-- Room was seen and `newConn` is dialled and marked in use; before the
  `p.mu.Lock()` that guards `append(p.connections[addr], newConn)`. -/
  | append (newConn : grpcConnection) : GetCall
  /-- The address had no entry and `newConn` is dialled and marked in use;
  before the `p.mu.Lock()` that guards `p.connections[addr] = ...`. -/
  | store (newConn : grpcConnection) : GetCall
  /-- The call has returned. -/
  | done (result : Except String (Option Nat)) : GetCall

/-- One stretch of `(*grpcClientPool).GetConnection(addr)` from one of these
points to the next, run without another call in between. -/
def grpcClientPool.stepGetConnection (p : grpcClientPool) (io : DialIO) (addr : String) :
    GetCall → GetCall × grpcClientPool
  | .start =>
    match p.connections addr with
    | some connections =>
      match acquireIdle io.now connections with
      | some (conn, marked) => (.done (.ok conn), p.setConnections addr marked)
      | none => (.room, p)
    | none =>
      match p.createConnection io addr with
      | .error e => (.done (.error e), p)
      | .ok newConn => (.store { newConn with inUse := true, lastUsed := io.now }, p)
  | .room =>
    if Int.ofNat ((p.connections addr).getD []).length < p.config.MaxConn then
      match p.createConnection io addr with
      | .error e => (.done (.error e), p)
      | .ok newConn => (.append { newConn with inUse := true, lastUsed := io.now }, p)
    else (.done (.error "all connections are in use and max connection limit reached"), p)
  | .append newConn =>
    (.done (.ok newConn.conn),
      p.setConnections addr ((p.connections addr).getD [] ++ [newConn]))
  | .store newConn => (.done (.ok newConn.conn), p.setConnections addr [newConn])
  | .done result => (.done result, p)

/-- A call of `GetConnection` run from start to return without another call in
between: three stretches at most. -/
def grpcClientPool.runGetConnection (p : grpcClientPool) (io : DialIO) (addr : String) :
    GetCall × grpcClientPool :=
  let s1 := p.stepGetConnection io addr .start
  let s2 := s1.2.stepGetConnection io addr s1.1
  s2.2.stepGetConnection io addr s2.1

/-- Two calls of `GetConnection(addr)` on one pool, overlapping: at each position
of the schedule `true` lets the first call run its next stretch and `false` the
second. -/
def grpcClientPool.overlap (io1 io2 : DialIO) (addr : String) :
    List Bool → GetCall × GetCall × grpcClientPool → GetCall × GetCall × grpcClientPool
  | [], s => s
  | true :: rest, (c1, c2, p) =>
    grpcClientPool.overlap io1 io2 addr rest
      ((p.stepGetConnection io1 addr c1).1, c2, (p.stepGetConnection io1 addr c1).2)
  | false :: rest, (c1, c2, p) =>
    grpcClientPool.overlap io1 io2 addr rest
      (c1, (p.stepGetConnection io2 addr c2).1, (p.stepGetConnection io2 addr c2).2)

/-- The pool of `samplePool` (`MaxConn = 2`) after one completed
`GetConnection`: the address holds channel 101, in use. -/
def busyPool : grpcClientPool := (samplePool.GetConnection sampleDial "10.0.0.9:50051").2

/-- A call at time 2 whose dial succeeds with channel 102. -/
def secondDial : DialIO := { now := 2, loadTLS := none, dial := .ok 102 }

/-- A call at time 3 whose dial succeeds with channel 103. -/
def thirdDial : DialIO := { now := 3, loadTLS := none, dial := .ok 103 }

/-- The schedule in which two calls alternate stretch by stretch: both pass the
loop, both pass the room test, then both append. -/
def alternating : List Bool := [true, false, true, false, true, false]

/-! ## Theorems: delivery pipeline -/

/-- C1 (code defect). For a valid envelope whose recipient is online on another
node (`node-B`, this node being `node-A`), `handleMessage` hands the decoded
`*dto.MessageDTO` and its own `SERVER_ID` to `SendMessage`: the assertion
`msg.([]byte)` panics before any publish, so the primary topic receives
nothing; and the key `SendMessage` puts on a publish is the node id it was
given, here `node-A`, not the recipient's `node-B`. -/
theorem C1_handleMessage_cross_node_panics_and_keys_own_node :
    handleMessage (sampleGateway [("bob", .meta bobOnNodeB)] emptyPool (fun _ _ => none))
        samplePayload
      = (.panic "interface conversion: msg is not []uint8", [],
          [("bob", .meta bobOnNodeB)])
    ∧ (NewProducer (fun _ => none) (fun _ => none)).SendMessage Context.Background
        (.bytes samplePayload)
        (sampleGateway [("bob", .meta bobOnNodeB)] emptyPool (fun _ _ => none)).SERVER_ID
      = (.ret none, [Event.writerWrite "node-A" samplePayload none]) := by
  constructor <;> rfl

/-- C2 (code defect). When the first publish fails and the first retry
succeeds, `SendMessage` leaves the loop by `break` and still writes to the
dead-letter topic: the trace holds a successful primary publish and a
dead-letter publish of the same message. -/
theorem C2_SendMessage_retry_success_also_dead_letters :
    flakyProducer.SendMessage Context.Background (.bytes samplePayload) "node-B"
      = (.ret none,
          [Event.writerWrite "node-B" samplePayload (some "write timeout"),
           Event.writerWrite "node-B" samplePayload none,
           Event.dlqWrite "node-B" samplePayload none])
    ∧ (flakyProducer.SendMessage Context.Background (.bytes samplePayload) "node-B").2.any
        Event.isWriterSuccess = true
    ∧ (flakyProducer.SendMessage Context.Background (.bytes samplePayload) "node-B").2.any
        Event.isDlqWrite = true := by
  refine ⟨rfl, rfl, rfl⟩

/-- C3. With a context that is never cancelled and a primary writer whose every
call fails, `SendMessage` on a byte payload makes the initial attempt, exactly
three retries (calls 1, 2, 3 of the writer) and then exactly one dead-letter
publish, all keyed by `nodeId`; it returns the result of that dead-letter
publish: nil on success, the dead-letter error on failure. -/
theorem C3_SendMessage_exhausts_three_retries_then_dead_letter
    (p : producer) (ctx : Context) (value : Bytes) (nodeId : String)
    (hctx : ∀ i, ctx.doneBy i = false)
    (hfail : ∀ k, p.writer k ≠ none) :
    p.SendMessage ctx (.bytes value) nodeId
      = (.ret (p.dlq 0),
          [Event.writerWrite nodeId value (p.writer 0),
           Event.writerWrite nodeId value (p.writer 1),
           Event.writerWrite nodeId value (p.writer 2),
           Event.writerWrite nodeId value (p.writer 3),
           Event.dlqWrite nodeId value (p.dlq 0)]) := by
  have h0 := hfail 0
  have h1 := hfail 1
  have h2 := hfail 2
  have h3 := hfail 3
  cases e0 : p.writer 0 with
  | none => exact absurd e0 h0
  | some a0 =>
    cases e1 : p.writer 1 with
    | none => exact absurd e1 h1
    | some a1 =>
      cases e2 : p.writer 2 with
      | none => exact absurd e2 h2
      | some a2 =>
        cases e3 : p.writer 3 with
        | none => exact absurd e3 h3
        | some a3 =>
          simp [producer.SendMessage, producer.retryLoop, GoAny.assertBytes, MAX_SEND_RETRY,
            Context.selectDone, hctx, e0, e1, e2, e3]

/-- Witness of C3: a broker that is down, the background context. -/
theorem C3_SendMessage_exhausts_three_retries_then_dead_letter_witness :
    downProducer.SendMessage Context.Background (.bytes samplePayload) "node-B"
      = (.ret (downProducer.dlq 0),
          [Event.writerWrite "node-B" samplePayload (downProducer.writer 0),
           Event.writerWrite "node-B" samplePayload (downProducer.writer 1),
           Event.writerWrite "node-B" samplePayload (downProducer.writer 2),
           Event.writerWrite "node-B" samplePayload (downProducer.writer 3),
           Event.dlqWrite "node-B" samplePayload (downProducer.dlq 0)]) :=
  C3_SendMessage_exhausts_three_retries_then_dead_letter downProducer Context.Background
    samplePayload "node-B" (fun _ => rfl) (fun _ h => Option.noConfusion h)

/-- What `validate.Struct` does with every decoded envelope: the second part of
the tag of `MessageType` names the rule ` oneof`, with a space in front, which
is not registered, and the call panics. -/
theorem validate_Struct_panics (m : MessageDTO) :
    validate.Struct (some m)
      = .panic "Undefined validation function  oneof on field MessageType" := by
  have h : undefinedRule = some ("MessageType", " oneof") := by decide
  simp only [validate.Struct, h]
  rfl

/-- When the presence lookup of the recipient returns an error or a record that
is not online, `handleMessage` has no effect at all, whatever the validator
answers: the trace is empty. -/
theorem handleMessage_absent_or_offline_trace (g : Gateway) (msg : Bytes) (m : MessageDTO)
    (hdec : g.unmarshal msg = .ok (some m))
    (r : Except String Meta) (sm : StatusMap)
    (hget : g.statusIns.GetStatus g.statusMap m.ReceiverId = (.ret r, sm))
    (hmiss : ∀ data, r = .ok data → data.Status ≠ "online") :
    (handleMessage g msg).2.1 = [] := by
  cases hval : g.validateStruct (some m) with
  | panic reason => simp [handleMessage, hdec, hval]
  | ret verdict =>
    cases verdict with
    | some e => simp [handleMessage, hdec, hval]
    | none =>
      cases r with
      | error e => simp [handleMessage, hdec, hval, hget]
      | ok data =>
        have hoff : data.Status ≠ "online" := hmiss data rfl
        simp [handleMessage, hdec, hval, hget, hoff]

/-- C4 (code defect). A well-formed envelope for bob arrives at `node-A`. When bob
has no presence record (cache miss and the shared store answering an error),
and when bob has a record that is not online, `handleMessage` panics in
`validate.Struct` and publishes nothing. Had the validator accepted the
envelope, the first run would return the lookup error and the second nil, again
with nothing published: the branch for a status that is not online is empty.
For every gateway, every validator and every envelope whose recipient is absent
or not online the trace is empty, so the dead-letter topic receives nothing. -/
theorem C4_handleMessage_absent_or_offline_not_dead_lettered :
    handleMessage (nodeAGateway [] emptyPool) envelopeFrame
      = (.panic "Undefined validation function  oneof on field MessageType", [], [])
    ∧ handleMessage (nodeAGateway [("bob", .meta bobOffline)] emptyPool) envelopeFrame
      = (.panic "Undefined validation function  oneof on field MessageType", [],
          [("bob", .meta bobOffline)])
    ∧ handleMessage (sampleGateway [] emptyPool (fun _ _ => none)) envelopeFrame
      = (.ret (some "redis: nil"), [], [])
    ∧ handleMessage (sampleGateway [("bob", .meta bobOffline)] emptyPool (fun _ _ => none))
        envelopeFrame
      = (.ret none, [], [("bob", .meta bobOffline)])
    ∧ (∀ (g : Gateway) (msg : Bytes) (m : MessageDTO) (r : Except String Meta)
        (sm : StatusMap),
        g.unmarshal msg = .ok (some m) →
        g.statusIns.GetStatus g.statusMap m.ReceiverId = (.ret r, sm) →
        (∀ data, r = .ok data → data.Status ≠ "online") →
        (handleMessage g msg).2.1 = []
        ∧ (handleMessage g msg).2.1.any Event.isDlqWrite = false) := by
  have hd : decodeFrame envelopeFrame = .ok (some sampleDTO) := rfl
  refine ⟨?_, ?_, rfl, rfl, ?_⟩
  · simp only [handleMessage, nodeAGateway, sampleGateway, hd, validate_Struct_panics]
  · simp only [handleMessage, nodeAGateway, sampleGateway, hd, validate_Struct_panics]
  · intro g msg m r sm hdec hget hmiss
    have ht := handleMessage_absent_or_offline_trace g msg m hdec r sm hget hmiss
    rw [ht]
    exact ⟨rfl, rfl⟩

/-- C5 (code defect). The recipient is online on this node. When the registry
has no connection for it, `GetConnTemplate` returns `(nil, false)`, the branch
on `!ok` is empty and `conn.WriteMessage` is called on the nil connection: the
call panics and nothing reaches the dead-letter topic. When the socket write
fails, the error is returned and again nothing reaches the dead-letter topic.
In both runs nothing is published to the primary topic. -/
theorem C5_handleMessage_local_missing_conn_dereferences_nil :
    handleMessage (sampleGateway [("bob", .meta bobOnNodeA)] emptyPool (fun _ _ => none))
        samplePayload
      = (.panic "nil pointer dereference: conn.WriteMessage", [],
          [("bob", .meta bobOnNodeA)])
    ∧ handleMessage
        (sampleGateway [("bob", .meta bobOnNodeA)] bobPool (fun _ _ => some "broken pipe"))
        samplePayload
      = (.ret (some "broken pipe"), [Event.connWrite 7 samplePayload (some "broken pipe")],
          [("bob", .meta bobOnNodeA)]) := by
  constructor <;> rfl

/-! ## Theorems: round-robin selector -/

/-- C6 (code defect). `Balance` indexes the list with the counter after the
increment (`atomic.AddInt64` returns the new value), so a fresh balancer on
`[A, B, C]` answers six sequential calls with `B, C, A, B, C, A`: the first
call returns `L[1]`, not `L[0]`, and the order asserted by
`TestRoundRobinBalancerBasic` (`A, B, C, A, B, C`) is not produced. -/
theorem C6_Balance_fresh_starts_at_second_node :
    (NewRoundRobinBalancer ["A", "B", "C"]).map
        (fun r => (r.balanceSeq ["", "", "", "", "", ""]).1)
      = .ok [.ret (.ok "B"), .ret (.ok "C"), .ret (.ok "A"),
             .ret (.ok "B"), .ret (.ok "C"), .ret (.ok "A")] := by
  rfl

/-- C7 (code defect). `UpdateNodes` stores 0 in the counter, and the next
`Balance` increments before indexing: after a successful update of a balancer
to `M = [127.0.0.1:8082, 127.0.0.1:8083]` the next four calls return
`M[1], M[0], M[1], M[0]`, where `TestBalancerUpdateNodes` expects
`M[0], M[1], M[0], M[1]`. -/
theorem C7_Balance_after_UpdateNodes_starts_at_second_node :
    (NewRoundRobinBalancer ["127.0.0.1:8080"]).map
        (fun r =>
          ((r.UpdateNodes (.list ["127.0.0.1:8082", "127.0.0.1:8083"])).1,
           ((r.UpdateNodes (.list ["127.0.0.1:8082", "127.0.0.1:8083"])).2.balanceSeq
              ["", "", "", ""]).1))
      = .ok (none,
          [.ret (.ok "127.0.0.1:8083"), .ret (.ok "127.0.0.1:8082"),
           .ret (.ok "127.0.0.1:8083"), .ret (.ok "127.0.0.1:8082")]) := by
  rfl

/-! ## Theorems: snowflake generator -/

/-- Within the `int64` range `wrap64` is the identity. -/
theorem wrap64_of_range (x : Int) (h1 : -(2 ^ 63) ≤ x) (h2 : x < 2 ^ 63) : wrap64 x = x := by
  unfold wrap64
  omega

/-- The bits of a non-negative `int64` are the number itself. -/
theorem bits64_natCast (n : Nat) (h : n < 2 ^ 64) : bits64 (n : Int) = n := by
  unfold bits64
  have : ((n : Int) % 2 ^ 64) = (n : Int) := by omega
  rw [this]
  simp

/-- The bits of any `int64` are below `2 ^ 64`. -/
theorem bits64_lt (x : Int) : bits64 x < 2 ^ 64 := by
  unfold bits64
  omega

/-- Go `&` of two non-negative `int64` values is the natural `&&&`. -/
theorem and64_natCast (a b : Nat) (ha : a < 2 ^ 63) (hb : b < 2 ^ 63) :
    and64 (a : Int) (b : Int) = ((a &&& b : Nat) : Int) := by
  unfold and64
  rw [bits64_natCast a (by omega), bits64_natCast b (by omega)]
  have h : a &&& b ≤ b := Nat.and_le_right
  apply wrap64_of_range <;> omega

/-- Go `|` of two non-negative `int64` values is the natural `|||`. -/
theorem or64_natCast (a b : Nat) (ha : a < 2 ^ 63) (hb : b < 2 ^ 63) :
    or64 (a : Int) (b : Int) = ((a ||| b : Nat) : Int) := by
  unfold or64
  rw [bits64_natCast a (by omega), bits64_natCast b (by omega)]
  have h : a ||| b < 2 ^ 63 := Nat.or_lt_two_pow ha hb
  apply wrap64_of_range <;> omega

/-- Go `<<` of a non-negative `int64` that does not overflow is a multiplication. -/
theorem shl64_natCast (a k : Nat) (h : a * 2 ^ k < 2 ^ 63) :
    shl64 (a : Int) k = ((a * 2 ^ k : Nat) : Int) := by
  unfold shl64
  have hk : 0 < 2 ^ k := Nat.two_pow_pos k
  have ha : a < 2 ^ 64 := by
    have : a ≤ a * 2 ^ k := Nat.le_mul_of_pos_right a hk
    omega
  rw [bits64_natCast a ha]
  apply wrap64_of_range <;> omega

/-- A mask applied to any `int64` gives a value between 0 and the mask. -/
theorem and64_mask_natCast (x : Int) (m : Nat) (hm : m < 2 ^ 63) :
    ∃ r : Nat, and64 x (m : Int) = (r : Int) ∧ r ≤ m := by
  refine ⟨bits64 x &&& m, ?_, Nat.and_le_right⟩
  unfold and64
  rw [bits64_natCast m (by omega)]
  have h : bits64 x &&& m ≤ m := Nat.and_le_right
  apply wrap64_of_range <;> omega

/-- The worker id built by `NewGeneratorID` always fits 13 bits, so the
constructor always returns a generator, with zeroed timestamp and sequence. -/
theorem NewGeneratorID_ok (biz dc machine : Int) :
    ∃ w : Nat, w < 2 ^ 13 ∧
      NewGeneratorID biz dc machine = .ok { lastTs := 0, sequence := 0, workerID := (w : Int) } := by
  obtain ⟨b, hb, hb15⟩ := and64_mask_natCast biz 15 (by norm_num)
  obtain ⟨d, hd, hd7⟩ := and64_mask_natCast dc 7 (by norm_num)
  obtain ⟨m, hm, hm63⟩ := and64_mask_natCast machine 63 (by norm_num)
  have e15 : (2 : Int) ^ bizBits - 1 = ((15 : Nat) : Int) := by norm_num [bizBits]
  have e7 : (2 : Int) ^ dcBits - 1 = ((7 : Nat) : Int) := by norm_num [dcBits]
  have e63 : (2 : Int) ^ machineBits - 1 = ((63 : Nat) : Int) := by norm_num [machineBits]
  have hb9 : b * 2 ^ 9 < 2 ^ 13 := by omega
  have hd6 : d * 2 ^ 6 < 2 ^ 13 := by omega
  have hm13 : m < 2 ^ 13 := by omega
  have hbd : b * 2 ^ 9 ||| d * 2 ^ 6 < 2 ^ 13 := Nat.or_lt_two_pow hb9 hd6
  have hall : (b * 2 ^ 9 ||| d * 2 ^ 6) ||| m < 2 ^ 13 := Nat.or_lt_two_pow hbd hm13
  refine ⟨(b * 2 ^ 9 ||| d * 2 ^ 6) ||| m, hall, ?_⟩
  unfold NewGeneratorID
  rw [e15, e7, e63, hb, hd, hm]
  have s9 : dcBits + machineBits = 9 := rfl
  have s6 : machineBits = 6 := rfl
  rw [s9, s6, shl64_natCast b 9 (by omega), shl64_natCast d 6 (by omega),
    or64_natCast _ _ (by omega) (by omega), or64_natCast _ _ (by omega) (by omega)]
  have hwb : ¬ (((b * 2 ^ 9 ||| d * 2 ^ 6) ||| m : Nat) : Int) ≥ 2 ^ workerBits := by
    have : ((2 : Int) ^ workerBits) = 8192 := by norm_num [workerBits, bizBits, dcBits, machineBits]
    rw [this]
    omega
  simp only [hwb, if_false]

/-- The packed ID is the sum of its three fields when each fits its width. -/
theorem pack_eq (w now s : Int) (hw0 : 0 ≤ w) (hw : w < 2 ^ 13)
    (hn0 : epoch ≤ now) (hn : now < epoch + 2 ^ 41) (hs0 : 0 ≤ s) (hs : s < 2 ^ 9) :
    GeneratorID.pack w now s = (now - epoch) * 2 ^ 22 + w * 2 ^ 9 + s := by
  obtain ⟨d, hd⟩ := Int.eq_ofNat_of_zero_le (show 0 ≤ now - epoch by omega)
  obtain ⟨wn, hwn⟩ := Int.eq_ofNat_of_zero_le hw0
  obtain ⟨sn, hsn⟩ := Int.eq_ofNat_of_zero_le hs0
  have hd41 : d < 2 ^ 41 := by omega
  have hw13 : wn < 2 ^ 13 := by omega
  have hs9 : sn < 2 ^ 9 := by omega
  have hlow : 2 ^ 9 * wn + sn < 2 ^ 22 := by omega
  have e1 : wn * 2 ^ 9 ||| sn = 2 ^ 9 * wn + sn := by
    rw [Nat.mul_comm wn (2 ^ 9)]
    exact (Nat.mul_add_lt_is_or hs9 wn).symm
  have e2 : d * 2 ^ 22 ||| (2 ^ 9 * wn + sn) = 2 ^ 22 * d + (2 ^ 9 * wn + sn) := by
    rw [Nat.mul_comm d (2 ^ 22)]
    exact (Nat.mul_add_lt_is_or hlow d).symm
  have e3 : (d * 2 ^ 22 ||| wn * 2 ^ 9) ||| sn = 2 ^ 22 * d + (2 ^ 9 * wn + sn) := by
    rw [Nat.lor_assoc, e1, e2]
  have hor : d * 2 ^ 22 ||| wn * 2 ^ 9 < 2 ^ 63 :=
    Nat.or_lt_two_pow (by omega) (by omega)
  unfold GeneratorID.pack
  rw [hd, hwn, hsn, wrap64_of_range (d : Int) (by omega) (by omega),
    shl64_natCast d 22 (by omega), shl64_natCast wn 9 (by omega),
    or64_natCast _ _ (by omega) (by omega), or64_natCast _ _ hor (by omega), e3]
  push_cast
  ring

/-- The statement `g.sequence = (g.sequence + 1) & maxSeq` on a 9-bit sequence. -/
theorem next_sequence_eq (s : Int) (hs0 : 0 ≤ s) (hs : s < 2 ^ 9) :
    and64 (wrap64 (s + 1)) maxSeq = (s + 1) % 512 := by
  obtain ⟨n, hn⟩ := Int.eq_ofNat_of_zero_le (show 0 ≤ s + 1 by omega)
  have hmax : maxSeq = ((511 : Nat) : Int) := by norm_num [maxSeq, seqBits]
  have hand : n &&& 511 = n % 2 ^ 9 := Nat.and_pow_two_sub_one_eq_mod n 9
  rw [wrap64_of_range (s + 1) (by omega) (by omega), hn, hmax,
    and64_natCast n 511 (by omega) (by norm_num), hand]
  omega

/-- What the busy-wait loop returns: a reading above `lastTs`, which is either
the reading it was entered with or the last one it took from the clock. -/
theorem spin_some (clock : Nat → Int) (lastTs : Int) :
    ∀ (fuel : Nat) (now : Int) (tick : Nat) (now2 : Int) (tick2 : Nat),
      GeneratorID.spin clock lastTs fuel now tick = some (now2, tick2) →
      lastTs < now2 ∧
        ((now2 = now ∧ tick2 = tick) ∨ (tick < tick2 ∧ now2 = clock (tick2 - 1))) := by
  intro fuel
  induction fuel with
  | zero =>
    intro now tick now2 tick2 h
    unfold GeneratorID.spin at h
    by_cases hle : now ≤ lastTs
    · simp [hle] at h
    · simp only [hle, if_false, Option.some.injEq, Prod.mk.injEq] at h
      obtain ⟨h1, h2⟩ := h
      subst h1
      subst h2
      exact ⟨by omega, Or.inl ⟨rfl, rfl⟩⟩
  | succ fuel ih =>
    intro now tick now2 tick2 h
    unfold GeneratorID.spin at h
    by_cases hle : now ≤ lastTs
    · simp only [hle, if_true] at h
      obtain ⟨hgt, hcase⟩ := ih (clock tick) (tick + 1) now2 tick2 h
      refine ⟨hgt, Or.inr ?_⟩
      rcases hcase with ⟨h1, h2⟩ | ⟨h1, h2⟩
      · subst h2
        exact ⟨by omega, by simpa using h1⟩
      · exact ⟨by omega, h2⟩
    · simp only [hle, if_false, Option.some.injEq, Prod.mk.injEq] at h
      obtain ⟨h1, h2⟩ := h
      subst h1
      subst h2
      exact ⟨by omega, Or.inl ⟨rfl, rfl⟩⟩

/-- The busy-wait loop ends as soon as the clock shows a reading above `lastTs`. -/
theorem spin_progress (clock : Nat → Int) (lastTs : Int) :
    ∀ (fuel : Nat) (now : Int) (tick j : Nat),
      tick ≤ j → j < tick + fuel → lastTs < clock j →
      ∃ r, GeneratorID.spin clock lastTs fuel now tick = some r := by
  intro fuel
  induction fuel with
  | zero =>
    intro now tick j h1 h2 _
    omega
  | succ fuel ih =>
    intro now tick j h1 h2 h3
    unfold GeneratorID.spin
    by_cases hle : now ≤ lastTs
    · simp only [hle, if_true]
      by_cases hj : tick = j
      · subst hj
        have hnot : ¬ clock tick ≤ lastTs := by omega
        cases fuel with
        | zero => exact ⟨(clock tick, tick + 1), by simp [GeneratorID.spin, hnot]⟩
        | succ f => exact ⟨(clock tick, tick + 1), by simp [GeneratorID.spin, hnot]⟩
      · exact ih (clock tick) (tick + 1) j (by omega) (by omega) h3
    · exact ⟨(now, tick), by simp [hle]⟩

/-- One call of `Next` on a clock that has not gone back below `lastTs`: the
new state keeps the worker id and a 9-bit sequence, records the last reading
taken, and the ID is the packed sum for the new state; the pair (timestamp,
sequence) has grown strictly. -/
theorem Next_step (clock : Nat → Int)
    (hrange : ∀ i, epoch ≤ clock i ∧ clock i < epoch + 2 ^ 41)
    (g : GeneratorID) (fuel tick : Nat)
    (hw0 : 0 ≤ g.workerID) (hw : g.workerID < 2 ^ 13)
    (hs0 : 0 ≤ g.sequence) (hs : g.sequence < 2 ^ 9)
    (hnoreg : g.lastTs ≤ clock tick)
    (id : Int) (g1 : GeneratorID) (tick1 : Nat)
    (h : g.Next clock fuel tick = some (id, g1, tick1)) :
    g1.workerID = g.workerID ∧ 0 ≤ g1.sequence ∧ g1.sequence < 2 ^ 9 ∧ tick < tick1
      ∧ g1.lastTs = clock (tick1 - 1)
      ∧ id = (g1.lastTs - epoch) * 2 ^ 22 + g1.workerID * 2 ^ 9 + g1.sequence
      ∧ (g.lastTs < g1.lastTs ∨ (g.lastTs = g1.lastTs ∧ g.sequence < g1.sequence)) := by
  have hlt : ¬ clock tick < g.lastTs := by omega
  have hr := hrange tick
  simp only [GeneratorID.Next, hlt, if_false] at h
  by_cases heq : clock tick = g.lastTs
  · simp only [heq, if_true, next_sequence_eq g.sequence hs0 hs] at h
    by_cases hz : (g.sequence + 1) % 512 = 0
    · simp only [hz, if_true] at h
      cases hsp : GeneratorID.spin clock g.lastTs fuel g.lastTs (tick + 1) with
      | none => simp [hsp] at h
      | some r =>
        obtain ⟨now2, tick2⟩ := r
        simp only [hsp, Option.some.injEq, Prod.mk.injEq] at h
        obtain ⟨hid, hg, ht⟩ := h
        obtain ⟨hgt, hcase⟩ := spin_some clock g.lastTs fuel g.lastTs (tick + 1) now2 tick2 hsp
        have hcase2 : tick + 1 < tick2 ∧ now2 = clock (tick2 - 1) := by
          rcases hcase with ⟨h1, _⟩ | h2
          · omega
          · exact h2
        have hr2 := hrange (tick2 - 1)
        subst ht
        subst hg
        subst hid
        refine ⟨rfl, by simp, by simp, by omega, hcase2.2, ?_, Or.inl hgt⟩
        simp only
        rw [pack_eq g.workerID now2 0 hw0 hw (by omega) (by omega) (by omega) (by norm_num)]
    · simp only [hz, if_false, Option.some.injEq, Prod.mk.injEq] at h
      obtain ⟨hid, hg, ht⟩ := h
      have hseq : (g.sequence + 1) % 512 = g.sequence + 1 := by omega
      subst ht
      subst hg
      subst hid
      refine ⟨rfl, by simp only; omega, by simp only; omega, by omega, by simp [heq], ?_,
        Or.inr ⟨rfl, by simp only; omega⟩⟩
      simp only
      rw [pack_eq g.workerID g.lastTs ((g.sequence + 1) % 512) hw0 hw (by omega) (by omega)
        (by omega) (by omega)]
  · simp only [heq, if_false, Option.some.injEq, Prod.mk.injEq] at h
    obtain ⟨hid, hg, ht⟩ := h
    subst ht
    subst hg
    subst hid
    refine ⟨rfl, by simp, by simp, by omega, by simp, ?_, Or.inl (by simp only; omega)⟩
    simp only
    rw [pack_eq g.workerID (clock tick) 0 hw0 hw hr.1 hr.2 (by omega) (by norm_num)]

/-- On a non-decreasing in-range clock the IDs of sequential `Next` calls form
a strictly increasing chain above the packed value of the starting state. -/
theorem NextN_chain (clock : Nat → Int)
    (hmono : ∀ i j, i ≤ j → clock i ≤ clock j)
    (hrange : ∀ i, epoch ≤ clock i ∧ clock i < epoch + 2 ^ 41) (fuel : Nat) :
    ∀ (n : Nat) (g : GeneratorID) (tick : Nat) (ids : List Int) (g' : GeneratorID)
      (tick' : Nat),
      0 ≤ g.workerID → g.workerID < 2 ^ 13 → 0 ≤ g.sequence → g.sequence < 2 ^ 9 →
      g.lastTs ≤ clock tick →
      GeneratorID.NextN clock fuel n g tick = some (ids, g', tick') →
      List.Chain (fun a b : Int => a < b)
        ((g.lastTs - epoch) * 2 ^ 22 + g.workerID * 2 ^ 9 + g.sequence) ids := by
  intro n
  induction n with
  | zero =>
    intro g tick ids g' tick' _ _ _ _ _ h
    simp only [GeneratorID.NextN, Option.some.injEq, Prod.mk.injEq] at h
    rw [← h.1]
    exact List.Chain.nil
  | succ n ih =>
    intro g tick ids g' tick' hw0 hw hs0 hs hno h
    unfold GeneratorID.NextN at h
    cases hN : g.Next clock fuel tick with
    | none => simp [hN] at h
    | some r =>
      obtain ⟨id, g1, tick1⟩ := r
      simp only [hN] at h
      cases hR : GeneratorID.NextN clock fuel n g1 tick1 with
      | none => simp [hR] at h
      | some r2 =>
        obtain ⟨ids2, g2, tick2⟩ := r2
        simp only [hR, Option.some.injEq, Prod.mk.injEq] at h
        obtain ⟨hw1, hs10, hs1, htick, hlast, hid, hgrow⟩ :=
          Next_step clock hrange g fuel tick hw0 hw hs0 hs hno id g1 tick1 hN
        have hno1 : g1.lastTs ≤ clock tick1 := by
          rw [hlast]
          exact hmono _ _ (by omega)
        have hrec := ih g1 tick1 ids2 g2 tick2 (by omega) (by omega) hs10 hs1 hno1 hR
        rw [← h.1]
        refine List.Chain.cons ?_ (by rw [hid]; exact hrec)
        rw [hid, hw1]
        rcases hgrow with hlt | ⟨heq, hlt⟩
        · omega
        · omega

/-- A call of `Next` returns once the clock shows a reading above `lastTs`. -/
theorem Next_progress (clock : Nat → Int) (g : GeneratorID) (tick j : Nat)
    (hj : tick + 2 ≤ j) (hlater : g.lastTs < clock j) :
    ∃ r, g.Next clock (j + 1) tick = some r := by
  unfold GeneratorID.Next
  by_cases hreg : clock tick < g.lastTs
  · simp only [hreg, if_true]
    by_cases heq : clock (tick + 1) = g.lastTs
    · simp only [heq, if_true]
      by_cases hz : and64 (wrap64 (g.sequence + 1)) maxSeq = 0
      · simp only [hz, if_true]
        obtain ⟨⟨now2, tick2⟩, hr⟩ := spin_progress clock g.lastTs (j + 1) g.lastTs
          (tick + 2) j (by omega) (by omega) hlater
        simp only [hr]
        exact ⟨_, rfl⟩
      · simp only [hz, if_false]
        exact ⟨_, rfl⟩
    · simp only [heq, if_false]
      exact ⟨_, rfl⟩
  · simp only [hreg, if_false]
    by_cases heq : clock tick = g.lastTs
    · simp only [heq, if_true]
      by_cases hz : and64 (wrap64 (g.sequence + 1)) maxSeq = 0
      · simp only [hz, if_true]
        obtain ⟨⟨now2, tick2⟩, hr⟩ := spin_progress clock g.lastTs (j + 1) g.lastTs
          (tick + 1) j (by omega) (by omega) hlater
        simp only [hr]
        exact ⟨_, rfl⟩
      · simp only [hz, if_false]
        exact ⟨_, rfl⟩
    · simp only [heq, if_false]
      exact ⟨_, rfl⟩

/-- C8. For a generator built by `NewGeneratorID` and every non-decreasing
sequence of clock readings within `[epoch, epoch + 2^41)`, the IDs returned by
any number of sequential `Next()` calls are strictly increasing from one call
to the next (hence distinct); and a call that has to wait (sequence overflow
within one millisecond) returns as soon as the clock shows a later
millisecond. -/
theorem C8_Next_successive_ids_strictly_increase (clock : Nat → Int)
    (hmono : ∀ i j, i ≤ j → clock i ≤ clock j)
    (hrange : ∀ i, epoch ≤ clock i ∧ clock i < epoch + 2 ^ timeBits)
    (biz dc machine : Int) (g : GeneratorID)
    (hnew : NewGeneratorID biz dc machine = .ok g) :
    (∀ (fuel n : Nat) (ids : List Int) (g' : GeneratorID) (tick' : Nat),
        GeneratorID.NextN clock fuel n g 0 = some (ids, g', tick') →
        List.Chain' (fun a b : Int => a < b) ids)
    ∧ (∀ (gs : GeneratorID) (tick j : Nat), tick + 2 ≤ j → gs.lastTs < clock j →
        ∃ r, gs.Next clock (j + 1) tick = some r) := by
  have htb : (2 : Int) ^ timeBits = 2 ^ 41 := by simp [timeBits]
  have hrange2 : ∀ i, epoch ≤ clock i ∧ clock i < epoch + 2 ^ 41 := by
    intro i
    have := hrange i
    rw [htb] at this
    exact this
  refine ⟨?_, fun gs tick j hj hl => Next_progress clock gs tick j hj hl⟩
  intro fuel n ids g' tick' hrun
  obtain ⟨w, hw, hok⟩ := NewGeneratorID_ok biz dc machine
  rw [hok] at hnew
  have hg : g = { lastTs := 0, sequence := 0, workerID := (w : Int) } :=
    (Except.ok.inj hnew).symm
  subst hg
  have h0 := (hrange2 0).1
  have hchain := NextN_chain clock hmono hrange2 fuel n _ 0 ids g' tick'
    (by simp) (by simp only; omega) (by simp) (by simp)
    (by simp only [epoch] at h0 ⊢; omega) hrun
  cases ids with
  | nil => exact List.chain'_nil
  | cons a rest => exact (List.chain_cons.mp hchain).2

/-- Witness of C8: the steady clock, the generator of `(1, 1, 1)`, three calls
(two within the first millisecond, one in the next). -/
theorem C8_Next_successive_ids_strictly_increase_witness :
    GeneratorID.NextN steadyClock 0 3 { lastTs := 0, sequence := 0, workerID := 577 } 0
      = some ([295424, 295425, 4489728],
          { lastTs := 1704067200001, sequence := 0, workerID := 577 }, 3)
    ∧ List.Chain' (fun a b : Int => a < b) [295424, 295425, 4489728] :=
  ⟨rfl,
    (C8_Next_successive_ids_strictly_increase steadyClock
      (by intro i j h; unfold steadyClock; simp only [Int.ofNat_eq_coe]; omega)
      (by intro i; unfold steadyClock; simp only [Int.ofNat_eq_coe, timeBits]; omega)
      1 1 1 { lastTs := 0, sequence := 0, workerID := 577 } rfl).1
      0 3 [295424, 295425, 4489728]
      { lastTs := 1704067200001, sequence := 0, workerID := 577 } 3 rfl⟩

/-- C9 (code defect). The clock reads `epoch + 100`, then `epoch + 50`, and
after the single sleep `epoch + 60`, still below the last timestamp. The second
`Next()` does not wait: it takes the stale reading as its timestamp and
returns 251953664, smaller than the 419725824 returned before. -/
theorem C9_Next_clock_rollback_emits_smaller_id :
    NewGeneratorID 1 1 1 = .ok { lastTs := 0, sequence := 0, workerID := 577 }
    ∧ GeneratorID.NextN rollbackClock 0 2 { lastTs := 0, sequence := 0, workerID := 577 } 0
      = some ([419725824, 251953664],
          { lastTs := 1704067200060, sequence := 0, workerID := 577 }, 3)
    ∧ (251953664 : Int) < 419725824 := by
  refine ⟨rfl, rfl, by decide⟩

/-- C10 (code defect). Every component is masked to its field before the
worker id is assembled, so the check `worker >= 1<<workerBits` can never fire:
`(16, 0, 0)`, `(0, 8, 0)`, `(0, 0, 64)` and `(-1, 0, 0)` all yield a generator
(with worker ids 0, 0, 0 and 7680) and no error, and so does every other
triple. -/
theorem C10_NewGeneratorID_accepts_out_of_range_components :
    NewGeneratorID 16 0 0 = .ok { lastTs := 0, sequence := 0, workerID := 0 }
    ∧ NewGeneratorID 0 8 0 = .ok { lastTs := 0, sequence := 0, workerID := 0 }
    ∧ NewGeneratorID 0 0 64 = .ok { lastTs := 0, sequence := 0, workerID := 0 }
    ∧ NewGeneratorID (-1) 0 0 = .ok { lastTs := 0, sequence := 0, workerID := 7680 }
    ∧ ∀ biz dc machine : Int, ∃ g, NewGeneratorID biz dc machine = .ok g := by
  refine ⟨rfl, rfl, rfl, rfl, ?_⟩
  intro biz dc machine
  obtain ⟨w, _, hok⟩ := NewGeneratorID_ok biz dc machine
  exact ⟨_, hok⟩

/-- With every component inside its field, the worker id built by
`NewGeneratorID` is `biz * 2^9 + dc * 2^6 + machine`. -/
theorem NewGeneratorID_in_range (biz dc machine : Int)
    (hb0 : 0 ≤ biz) (hb : biz < 16) (hd0 : 0 ≤ dc) (hd : dc < 8)
    (hm0 : 0 ≤ machine) (hm : machine < 64) :
    NewGeneratorID biz dc machine
      = .ok { lastTs := 0, sequence := 0, workerID := biz * 2 ^ 9 + dc * 2 ^ 6 + machine } := by
  obtain ⟨b, rfl⟩ := Int.eq_ofNat_of_zero_le hb0
  obtain ⟨d, rfl⟩ := Int.eq_ofNat_of_zero_le hd0
  obtain ⟨m, rfl⟩ := Int.eq_ofNat_of_zero_le hm0
  have hb' : b < 16 := by omega
  have hd' : d < 8 := by omega
  have hm' : m < 64 := by omega
  have e15 : (2 : Int) ^ bizBits - 1 = ((15 : Nat) : Int) := by norm_num [bizBits]
  have e7 : (2 : Int) ^ dcBits - 1 = ((7 : Nat) : Int) := by norm_num [dcBits]
  have e63 : (2 : Int) ^ machineBits - 1 = ((63 : Nat) : Int) := by norm_num [machineBits]
  have ab : b &&& 15 = b := by
    have := Nat.and_pow_two_sub_one_eq_mod b 4
    simp only [Nat.reducePow, Nat.add_one_sub_one] at this
    omega
  have ad : d &&& 7 = d := by
    have := Nat.and_pow_two_sub_one_eq_mod d 3
    simp only [Nat.reducePow, Nat.add_one_sub_one] at this
    omega
  have am : m &&& 63 = m := by
    have := Nat.and_pow_two_sub_one_eq_mod m 6
    simp only [Nat.reducePow, Nat.add_one_sub_one] at this
    omega
  have hlow : 2 ^ 6 * d + m < 2 ^ 9 := by omega
  have o1 : d * 2 ^ 6 ||| m = 2 ^ 6 * d + m := by
    rw [Nat.mul_comm d (2 ^ 6)]
    exact (Nat.mul_add_lt_is_or (by omega) d).symm
  have o2 : b * 2 ^ 9 ||| (2 ^ 6 * d + m) = 2 ^ 9 * b + (2 ^ 6 * d + m) := by
    rw [Nat.mul_comm b (2 ^ 9)]
    exact (Nat.mul_add_lt_is_or hlow b).symm
  have o3 : (b * 2 ^ 9 ||| d * 2 ^ 6) ||| m = 2 ^ 9 * b + (2 ^ 6 * d + m) := by
    rw [Nat.lor_assoc, o1, o2]
  have hor : b * 2 ^ 9 ||| d * 2 ^ 6 < 2 ^ 63 := Nat.or_lt_two_pow (by omega) (by omega)
  unfold NewGeneratorID
  have s9 : dcBits + machineBits = 9 := rfl
  have s6 : machineBits = 6 := rfl
  rw [e15, e7, e63, and64_natCast b 15 (by omega) (by norm_num),
    and64_natCast d 7 (by omega) (by norm_num), and64_natCast m 63 (by omega) (by norm_num),
    ab, ad, am, s9, s6, shl64_natCast b 9 (by omega), shl64_natCast d 6 (by omega),
    or64_natCast _ _ (by omega) (by omega), or64_natCast _ _ hor (by omega), o3]
  have hwb : ¬ (((2 ^ 9 * b + (2 ^ 6 * d + m) : Nat)) : Int) ≥ 2 ^ workerBits := by
    have : ((2 : Int) ^ workerBits) = 8192 := by norm_num [workerBits, bizBits, dcBits, machineBits]
    rw [this]
    omega
  simp only [hwb, if_false]
  congr 2
  push_cast
  ring

/-- The sequence a call of `Next` stores is a 9-bit value, whatever it was before. -/
theorem next_sequence_range (s : Int) :
    0 ≤ and64 (wrap64 (s + 1)) maxSeq ∧ and64 (wrap64 (s + 1)) maxSeq ≤ 511 := by
  have hmax : maxSeq = ((511 : Nat) : Int) := by norm_num [maxSeq, seqBits]
  obtain ⟨r, hr, hle⟩ := and64_mask_natCast (wrap64 (s + 1)) 511 (by norm_num)
  rw [hmax, hr]
  omega

/-- The body of `Next` once the clock has been read: the ID is the packed value
of the state the call leaves behind, whose timestamp is a clock reading and
whose sequence fits 9 bits. -/
theorem Next_body_result (clock : Nat → Int) (g : GeneratorID) (fuel : Nat)
    (now : Int) (tk : Nat) (hnow : ∃ i, now = clock i)
    (id : Int) (g1 : GeneratorID) (tick1 : Nat)
    (h : (if now = g.lastTs then
            if and64 (wrap64 (g.sequence + 1)) maxSeq = 0 then
              match GeneratorID.spin clock g.lastTs fuel now tk with
              | none => none
              | some (now2, tick2) =>
                some (GeneratorID.pack g.workerID now2 (and64 (wrap64 (g.sequence + 1)) maxSeq),
                  ({ g with lastTs := now2,
                            sequence := and64 (wrap64 (g.sequence + 1)) maxSeq } : GeneratorID),
                  tick2)
            else
              some (GeneratorID.pack g.workerID now (and64 (wrap64 (g.sequence + 1)) maxSeq),
                ({ g with lastTs := now,
                          sequence := and64 (wrap64 (g.sequence + 1)) maxSeq } : GeneratorID), tk)
          else
            some (GeneratorID.pack g.workerID now 0,
              ({ g with lastTs := now, sequence := 0 } : GeneratorID), tk))
        = some (id, g1, tick1)) :
    g1.workerID = g.workerID ∧ id = GeneratorID.pack g.workerID g1.lastTs g1.sequence
      ∧ (∃ i, g1.lastTs = clock i) ∧ 0 ≤ g1.sequence ∧ g1.sequence ≤ 511 := by
  have hsr := next_sequence_range g.sequence
  by_cases heq : now = g.lastTs
  · simp only [heq, if_true] at h
    by_cases hz : and64 (wrap64 (g.sequence + 1)) maxSeq = 0
    · simp only [hz, if_true] at h
      cases hsp : GeneratorID.spin clock g.lastTs fuel g.lastTs tk with
      | none => simp [hsp] at h
      | some r =>
        obtain ⟨now2, tick2⟩ := r
        simp only [hsp, Option.some.injEq, Prod.mk.injEq] at h
        obtain ⟨hid, hg, _⟩ := h
        obtain ⟨hgt, hcase⟩ := spin_some clock g.lastTs fuel g.lastTs tk now2 tick2 hsp
        have hread : ∃ i, now2 = clock i := by
          rcases hcase with ⟨h1, _⟩ | ⟨_, h2⟩
          · omega
          · exact ⟨_, h2⟩
        subst hg
        subst hid
        exact ⟨rfl, rfl, hread, by simp, by simp⟩
    · simp only [hz, if_false, Option.some.injEq, Prod.mk.injEq] at h
      obtain ⟨hid, hg, _⟩ := h
      subst hg
      subst hid
      exact ⟨rfl, rfl, by rw [← heq]; exact hnow, hsr.1, hsr.2⟩
  · simp only [heq, if_false, Option.some.injEq, Prod.mk.injEq] at h
    obtain ⟨hid, hg, _⟩ := h
    subst hg
    subst hid
    exact ⟨rfl, rfl, hnow, by simp, by simp⟩

/-- Every ID returned by `Next` is the packed value of the state the call
leaves behind. -/
theorem Next_result (clock : Nat → Int) (g : GeneratorID) (fuel tick : Nat)
    (id : Int) (g1 : GeneratorID) (tick1 : Nat)
    (h : g.Next clock fuel tick = some (id, g1, tick1)) :
    g1.workerID = g.workerID ∧ id = GeneratorID.pack g.workerID g1.lastTs g1.sequence
      ∧ (∃ i, g1.lastTs = clock i) ∧ 0 ≤ g1.sequence ∧ g1.sequence ≤ 511 := by
  unfold GeneratorID.Next at h
  by_cases hreg : clock tick < g.lastTs
  · simp only [hreg, if_true] at h
    exact Next_body_result clock g fuel (clock (tick + 1)) (tick + 2) ⟨_, rfl⟩ id g1 tick1 h
  · simp only [hreg, if_false] at h
    exact Next_body_result clock g fuel (clock tick) (tick + 1) ⟨_, rfl⟩ id g1 tick1 h

/-- Shifting and masking an ID that is the sum of its three fields gives the
fields back, and the ID is a non-negative `int64`. -/
theorem id_fields (d w s : Int) (hd0 : 0 ≤ d) (hd : d < 2 ^ 41) (hw0 : 0 ≤ w)
    (hw : w < 2 ^ 13) (hs0 : 0 ≤ s) (hs : s < 2 ^ 9) :
    0 ≤ d * 2 ^ 22 + w * 2 ^ 9 + s ∧ d * 2 ^ 22 + w * 2 ^ 9 + s < 2 ^ 63
      ∧ shr64 (d * 2 ^ 22 + w * 2 ^ 9 + s) 22 = d
      ∧ and64 (shr64 (d * 2 ^ 22 + w * 2 ^ 9 + s) 9) (2 ^ workerBits - 1) = w
      ∧ and64 (d * 2 ^ 22 + w * 2 ^ 9 + s) maxSeq = s := by
  have hmask : (2 : Int) ^ workerBits - 1 = ((8191 : Nat) : Int) := by
    norm_num [workerBits, bizBits, dcBits, machineBits]
  have hmax : maxSeq = ((511 : Nat) : Int) := by norm_num [maxSeq, seqBits]
  obtain ⟨n, hn⟩ := Int.eq_ofNat_of_zero_le (show 0 ≤ d * 2 ^ 22 + w * 2 ^ 9 + s by omega)
  obtain ⟨q, hq⟩ := Int.eq_ofNat_of_zero_le
    (show 0 ≤ (d * 2 ^ 22 + w * 2 ^ 9 + s) / 2 ^ 9 by omega)
  have hq13 : q &&& 8191 = q % 2 ^ 13 := Nat.and_pow_two_sub_one_eq_mod q 13
  have hn9 : n &&& 511 = n % 2 ^ 9 := Nat.and_pow_two_sub_one_eq_mod n 9
  refine ⟨by omega, by omega, by unfold shr64; omega, ?_, ?_⟩
  · unfold shr64
    rw [hmask, hq, and64_natCast q 8191 (by omega) (by norm_num), hq13]
    omega
  · rw [hmax, hn, and64_natCast n 511 (by omega) (by norm_num), hn9]
    omega

/-- A call of `Next()` whose first clock reading lies after the stored
timestamp returns at once, whatever the fuel: sequence 0 at that reading. -/
theorem Next_new_millisecond (clock : Nat → Int) (g : GeneratorID) (fuel tick : Nat)
    (hlater : g.lastTs < clock tick) :
    g.Next clock fuel tick
      = some (GeneratorID.pack g.workerID (clock tick) 0,
          { g with lastTs := clock tick, sequence := 0 }, tick + 1) := by
  have hreg : ¬ clock tick < g.lastTs := by omega
  have hne : ¬ clock tick = g.lastTs := by omega
  unfold GeneratorID.Next
  simp only [hreg, hne, if_false]

/-- A call of `Next()` whose first clock reading equals the stored timestamp,
with a stored sequence below 511, returns at once, whatever the fuel: the next
sequence at the same timestamp. -/
theorem Next_same_millisecond (clock : Nat → Int) (g : GeneratorID) (fuel tick : Nat)
    (hsame : clock tick = g.lastTs) (hs0 : 0 ≤ g.sequence) (hs : g.sequence < 511) :
    g.Next clock fuel tick
      = some (GeneratorID.pack g.workerID (clock tick) (g.sequence + 1),
          { g with lastTs := clock tick, sequence := g.sequence + 1 }, tick + 1) := by
  have hreg : ¬ clock tick < g.lastTs := by omega
  have hseq : and64 (wrap64 (g.sequence + 1)) maxSeq = g.sequence + 1 := by
    rw [next_sequence_eq g.sequence hs0 (by omega)]
    omega
  have hnz : ¬ g.sequence + 1 = 0 := by omega
  unfold GeneratorID.Next
  simp only [hsame, lt_irrefl, hseq, hnz, if_false, if_true]

/-- C11. For a generator built from in-range `(biz, dc, machine)` the worker id
is `biz * 2^9 + dc * 2^6 + machine`; for every timestamp `t` in
`[epoch, epoch + 2^41)` and every sequence `s` in `[0, 511]` the value
`(t-epoch)<<22 | worker<<9 | s` returned by `Next()` equals
`(t - epoch) * 2^22 + worker * 2^9 + s`, is a non-negative `int64`, and gives
back its time, worker and sequence fields by `>> 22`, `>> 9 & (2^13 - 1)` and
`& maxSeq`. `Next()` does return that value: on a clock within the range, a call
that reads a timestamp `t` after the stored one returns
`(t - epoch) * 2^22 + worker * 2^9 + 0` and stores `(t, 0)`; a call that reads
the stored timestamp `t` with a stored sequence `s < 511` returns
`(t - epoch) * 2^22 + worker * 2^9 + (s + 1)` and stores `(t, s + 1)`, both
without waiting; a call that has to wait (sequence exhausted, or clock behind)
returns as soon as the clock has passed the stored timestamp; and every `Next()`
that returns has returned the packed value of the timestamp and the sequence it
has just stored, which lie in these ranges. -/
theorem C11_Next_id_bit_layout (biz dc machine : Int)
    (hb0 : 0 ≤ biz) (hb : biz < 16) (hd0 : 0 ≤ dc) (hd : dc < 8)
    (hm0 : 0 ≤ machine) (hm : machine < 64)
    (g : GeneratorID) (hnew : NewGeneratorID biz dc machine = .ok g) :
    g.workerID = biz * 2 ^ 9 + dc * 2 ^ 6 + machine
    ∧ (∀ t s : Int, epoch ≤ t → t < epoch + 2 ^ timeBits → 0 ≤ s → s ≤ 511 →
        GeneratorID.pack g.workerID t s = (t - epoch) * 2 ^ 22 + g.workerID * 2 ^ 9 + s
        ∧ 0 ≤ GeneratorID.pack g.workerID t s
        ∧ GeneratorID.pack g.workerID t s < 2 ^ 63
        ∧ shr64 (GeneratorID.pack g.workerID t s) 22 = t - epoch
        ∧ and64 (shr64 (GeneratorID.pack g.workerID t s) 9) (2 ^ workerBits - 1) = g.workerID
        ∧ and64 (GeneratorID.pack g.workerID t s) maxSeq = s)
    ∧ (∀ (gs : GeneratorID) (clock : Nat → Int) (fuel tick : Nat) (id : Int)
        (g1 : GeneratorID) (tick1 : Nat),
        gs.workerID = g.workerID →
        (∀ i, epoch ≤ clock i ∧ clock i < epoch + 2 ^ timeBits) →
        gs.Next clock fuel tick = some (id, g1, tick1) →
        id = GeneratorID.pack g.workerID g1.lastTs g1.sequence
        ∧ g1.workerID = g.workerID
        ∧ epoch ≤ g1.lastTs ∧ g1.lastTs < epoch + 2 ^ timeBits
        ∧ 0 ≤ g1.sequence ∧ g1.sequence ≤ 511)
    ∧ (∀ (gs : GeneratorID) (clock : Nat → Int) (fuel tick : Nat),
        gs.workerID = g.workerID →
        (∀ i, epoch ≤ clock i ∧ clock i < epoch + 2 ^ timeBits) →
        gs.lastTs < clock tick →
        gs.Next clock fuel tick
          = some ((clock tick - epoch) * 2 ^ 22 + g.workerID * 2 ^ 9 + 0,
              { lastTs := clock tick, sequence := 0, workerID := g.workerID }, tick + 1))
    ∧ (∀ (gs : GeneratorID) (clock : Nat → Int) (fuel tick : Nat),
        gs.workerID = g.workerID →
        (∀ i, epoch ≤ clock i ∧ clock i < epoch + 2 ^ timeBits) →
        clock tick = gs.lastTs → 0 ≤ gs.sequence → gs.sequence < 511 →
        gs.Next clock fuel tick
          = some ((clock tick - epoch) * 2 ^ 22 + g.workerID * 2 ^ 9 + (gs.sequence + 1),
              { lastTs := clock tick, sequence := gs.sequence + 1, workerID := g.workerID },
              tick + 1))
    ∧ (∀ (gs : GeneratorID) (clock : Nat → Int) (tick j : Nat),
        gs.workerID = g.workerID →
        (∀ i, epoch ≤ clock i ∧ clock i < epoch + 2 ^ timeBits) →
        tick + 2 ≤ j → gs.lastTs < clock j →
        ∃ (id : Int) (g1 : GeneratorID) (tick1 : Nat),
          gs.Next clock (j + 1) tick = some (id, g1, tick1)
          ∧ id = (g1.lastTs - epoch) * 2 ^ 22 + g.workerID * 2 ^ 9 + g1.sequence
          ∧ epoch ≤ g1.lastTs ∧ g1.lastTs < epoch + 2 ^ timeBits
          ∧ 0 ≤ g1.sequence ∧ g1.sequence ≤ 511) := by
  have htb : (2 : Int) ^ timeBits = 2 ^ 41 := by simp [timeBits]
  rw [NewGeneratorID_in_range biz dc machine hb0 hb hd0 hd hm0 hm] at hnew
  have hg : g = { lastTs := 0, sequence := 0, workerID := biz * 2 ^ 9 + dc * 2 ^ 6 + machine } :=
    (Except.ok.inj hnew).symm
  have hw : g.workerID = biz * 2 ^ 9 + dc * 2 ^ 6 + machine := by rw [hg]
  have hw0 : 0 ≤ g.workerID := by rw [hw]; omega
  have hw13 : g.workerID < 2 ^ 13 := by rw [hw]; omega
  have hret : ∀ (gs : GeneratorID) (clock : Nat → Int) (fuel tick : Nat) (id : Int)
      (g1 : GeneratorID) (tick1 : Nat),
      gs.workerID = g.workerID →
      (∀ i, epoch ≤ clock i ∧ clock i < epoch + 2 ^ timeBits) →
      gs.Next clock fuel tick = some (id, g1, tick1) →
      id = GeneratorID.pack g.workerID g1.lastTs g1.sequence
      ∧ g1.workerID = g.workerID
      ∧ epoch ≤ g1.lastTs ∧ g1.lastTs < epoch + 2 ^ timeBits
      ∧ 0 ≤ g1.sequence ∧ g1.sequence ≤ 511 := by
    intro gs clock fuel tick id g1 tick1 hgs hrange hrun
    obtain ⟨h1, h2, ⟨i, h3⟩, h4, h5⟩ := Next_result clock gs fuel tick id g1 tick1 hrun
    have hr := hrange i
    rw [← h3] at hr
    exact ⟨by rw [h2, hgs], by rw [h1, hgs], hr.1, hr.2, h4, h5⟩
  refine ⟨hw, ?_, hret, ?_, ?_, ?_⟩
  · intro t s ht0 ht hs0 hs
    rw [htb] at ht
    rw [pack_eq g.workerID t s hw0 hw13 ht0 ht hs0 (by omega)]
    exact ⟨rfl, id_fields (t - epoch) g.workerID s (by omega) (by omega) hw0 hw13 hs0 (by omega)⟩
  · intro gs clock fuel tick hgs hrange hlater
    have hr := hrange tick
    rw [htb] at hr
    rw [Next_new_millisecond clock gs fuel tick hlater, hgs,
      pack_eq g.workerID (clock tick) 0 hw0 hw13 hr.1 hr.2 (by omega) (by omega)]
  · intro gs clock fuel tick hgs hrange hsame hs0 hs
    have hr := hrange tick
    rw [htb] at hr
    rw [Next_same_millisecond clock gs fuel tick hsame hs0 hs, hgs,
      pack_eq g.workerID (clock tick) (gs.sequence + 1) hw0 hw13 hr.1 hr.2 (by omega) (by omega)]
  · intro gs clock tick j hgs hrange hj hlater
    obtain ⟨⟨id, g1, tick1⟩, hrun⟩ := Next_progress clock gs tick j hj hlater
    obtain ⟨h1, _, h3, h4, h5, h6⟩ := hret gs clock (j + 1) tick id g1 tick1 hgs hrange hrun
    rw [htb] at h4
    refine ⟨id, g1, tick1, hrun, ?_, h3, by rw [htb]; exact h4, h5, h6⟩
    rw [h1, pack_eq g.workerID g1.lastTs g1.sequence hw0 hw13 h3 h4 h5 (by omega)]

/-- Witness of C11: the generator of `(1, 1, 1)` (worker 577) on the steady
clock. Its first `Next()` reads the epoch millisecond itself, which lies after
the stored timestamp 0, and returns `0 * 2^22 + 577 * 2^9 + 0 = 295424`. -/
theorem C11_Next_id_bit_layout_witness :
    NewGeneratorID 1 1 1 = .ok { lastTs := 0, sequence := 0, workerID := 577 }
    ∧ ({ lastTs := 0, sequence := 0, workerID := 577 } : GeneratorID).Next steadyClock 0 0
      = some (295424, { lastTs := 1704067200000, sequence := 0, workerID := 577 }, 1) :=
  ⟨rfl,
    (C11_Next_id_bit_layout 1 1 1 (by decide) (by decide) (by decide) (by decide) (by decide)
      (by decide) { lastTs := 0, sequence := 0, workerID := 577 } rfl).2.2.2.1
      { lastTs := 0, sequence := 0, workerID := 577 } steadyClock 0 0 rfl
      (by intro i; unfold steadyClock; simp only [Int.ofNat_eq_coe, timeBits]; omega)
      (by decide)⟩

/-! ## Theorems: connection registry -/

/-- Deleting a key that `find?` finds shortens the list. -/
theorem length_filter_of_find (conns : List (String × WsConn)) (k : String) (x : String × WsConn)
    (h : conns.find? (fun kv => kv.1 == k) = some x) :
    (conns.filter (fun kv => !(kv.1 == k))).length + 1 ≤ conns.length := by
  induction conns with
  | nil => simp at h
  | cons a rest ih =>
    by_cases ha : a.1 = k
    · have hle := List.length_filter_le (fun kv : String × WsConn => !(kv.1 == k)) rest
      simp only [List.filter_cons, ha, beq_self_eq_true, Bool.not_true, List.length_cons]
      simp only [Bool.false_eq_true, if_false]
      omega
    · have hne : (a.1 == k) = false := by simpa using ha
      simp only [List.find?_cons, hne] at h
      have := ih h
      simp only [List.filter_cons, hne, Bool.not_false, if_true, List.length_cons]
      omega

/-- The invariant of the registry: no more entries than the count, and the
count within the capacity, which is a `uint32`. -/
theorem Pools_step_invariant (p : Pools) (op : PoolOp)
    (h1 : p.conns.length ≤ p.cnt) (h2 : p.cnt ≤ p.max) (h3 : p.max < 2 ^ 32) :
    (p.step op).conns.length ≤ (p.step op).cnt ∧ (p.step op).cnt ≤ (p.step op).max
      ∧ (p.step op).max = p.max := by
  cases op with
  | add clientId conn =>
    by_cases hfull : p.cnt ≥ p.max
    · have e : p.step (.add clientId conn) = p := by
        simp [Pools.step, Pools.AddConnTemplate, hfull]
      rw [e]
      exact ⟨h1, h2, rfl⟩
    · have e : p.step (.add clientId conn)
          = { p with
              conns := (clientId, { Conn := conn, clientID := clientId })
                :: p.conns.filter (fun kv => !(kv.1 == clientId))
              cnt := (p.cnt + 1) % 2 ^ 32 } := by
        simp [Pools.step, Pools.AddConnTemplate, hfull]
      have hle := List.length_filter_le (fun kv : String × WsConn => !(kv.1 == clientId)) p.conns
      rw [e]
      simp only [List.length_cons]
      refine ⟨?_, ?_, trivial⟩ <;> omega
  | release clientId =>
    cases hf : p.conns.find? (fun kv => kv.1 == clientId) with
    | none =>
      have e : p.step (.release clientId) = p := by
        simp [Pools.step, Pools.ReleaseConnTemplate, hf]
      rw [e]
      exact ⟨h1, h2, rfl⟩
    | some x =>
      have e : p.step (.release clientId)
          = { p with
              conns := p.conns.filter (fun kv => !(kv.1 == clientId))
              cnt := (p.cnt + (2 ^ 32 - 1)) % 2 ^ 32 } := by
        simp [Pools.step, Pools.ReleaseConnTemplate, hf]
      have hlen := length_filter_of_find p.conns clientId x hf
      rw [e]
      simp only
      refine ⟨?_, ?_, trivial⟩ <;> omega
  | close =>
    simp [Pools.step, Pools.CloseWsPools]

/-- The invariant holds after every sequence of calls. -/
theorem Pools_run_invariant (ops : List PoolOp) :
    ∀ p : Pools, p.conns.length ≤ p.cnt → p.cnt ≤ p.max → p.max < 2 ^ 32 →
      (p.run ops).conns.length ≤ (p.run ops).cnt ∧ (p.run ops).cnt ≤ (p.run ops).max
        ∧ (p.run ops).max = p.max := by
  induction ops with
  | nil =>
    intro p h1 h2 _
    exact ⟨h1, h2, rfl⟩
  | cons op rest ih =>
    intro p h1 h2 h3
    obtain ⟨s1, s2, s3⟩ := Pools_step_invariant p op h1 h2 h3
    have := ih (p.step op) s1 s2 (by omega)
    simp only [Pools.run, List.foldl_cons] at this ⊢
    exact ⟨this.1, this.2.1, by omega⟩

/-- C12. For a registry built by `NewWsPool(max)` (`max` a `uint32`) and every
sequence of `AddConnTemplate`, `ReleaseConnTemplate` and `CloseWsPools` calls,
the number of stored connections and the counter `cnt` are at most `max`
afterwards (hence after every prefix), and the counter never underflows: it is
at least the number of stored connections, so the decrement of a release that
finds its key does not wrap (a release never raises `cnt`). -/
theorem C12_Pools_count_within_capacity (max : Nat) (hmax : max < 2 ^ 32)
    (ops : List PoolOp) :
    ((NewWsPool max).run ops).conns.length ≤ max
    ∧ ((NewWsPool max).run ops).cnt ≤ max
    ∧ ((NewWsPool max).run ops).conns.length ≤ ((NewWsPool max).run ops).cnt
    ∧ (∀ k, (((NewWsPool max).run ops).ReleaseConnTemplate k).cnt
              ≤ ((NewWsPool max).run ops).cnt) := by
  obtain ⟨h1, h2, h3⟩ := Pools_run_invariant ops (NewWsPool max) (by simp [NewWsPool])
    (by simp [NewWsPool]) (by simpa [NewWsPool] using hmax)
  have h3' : ((NewWsPool max).run ops).max = max := by simpa [NewWsPool] using h3
  rw [h3'] at h2
  refine ⟨by omega, h2, h1, ?_⟩
  intro k
  unfold Pools.ReleaseConnTemplate
  cases hf : ((NewWsPool max).run ops).conns.find? (fun kv => kv.1 == k) with
  | none => exact Nat.le_refl _
  | some x =>
    have hlen := length_filter_of_find _ k x hf
    simp only
    omega

/-- Witness of C12: capacity 2, a repeated key, an absent key and a close. -/
theorem C12_Pools_count_within_capacity_witness :
    ((NewWsPool 2).run [.add "a" (some 1), .add "a" (some 2), .add "b" (some 3),
        .release "zz", .release "a", .release "a", .close, .add "c" none]).conns.length ≤ 2
    ∧ ((NewWsPool 2).run [.add "a" (some 1), .add "a" (some 2), .add "b" (some 3),
        .release "zz", .release "a", .release "a", .close, .add "c" none]).cnt ≤ 2 :=
  ⟨(C12_Pools_count_within_capacity 2 (by decide) _).1,
   (C12_Pools_count_within_capacity 2 (by decide) _).2.1⟩

/-- `GetConnTemplate` reports found exactly when the key has an entry. -/
theorem GetConnTemplate_found_iff (p : Pools) (k : String) :
    (p.GetConnTemplate k).2 = true ↔ ∃ kv ∈ p.conns, kv.1 = k := by
  unfold Pools.GetConnTemplate
  cases hf : p.conns.find? (fun kv => kv.1 == k) with
  | none =>
    simp only [Bool.false_eq_true, false_iff]
    rintro ⟨kv, hmem, hk⟩
    have := List.find?_eq_none.mp hf kv hmem
    simp [hk] at this
  | some x =>
    simp only [true_iff]
    exact ⟨x, List.mem_of_find?_eq_some hf, by simpa using List.find?_some hf⟩

/-- A successful `AddConnTemplate` keeps every registered key and registers the
new one. -/
theorem AddConnTemplate_keeps_found (p : Pools) (k' : String) (c : Option Nat) (k : String)
    (hroom : p.cnt < p.max) (h : k = k' ∨ (p.GetConnTemplate k).2 = true) :
    ((p.AddConnTemplate k' c).2.GetConnTemplate k).2 = true := by
  rw [GetConnTemplate_found_iff]
  have hnot : ¬ p.cnt ≥ p.max := by omega
  simp only [Pools.AddConnTemplate, hnot, if_false]
  by_cases hk : k = k'
  · exact ⟨(k', { Conn := c, clientID := k' }), List.mem_cons_self _ _, hk.symm⟩
  · rcases h with h | h
    · exact absurd h hk
    · obtain ⟨kv, hmem, hkv⟩ := (GetConnTemplate_found_iff p k).mp h
      refine ⟨kv, List.mem_cons_of_mem _ (List.mem_filter.mpr ⟨hmem, ?_⟩), hkv⟩
      have : kv.1 ≠ k' := by rw [hkv]; exact hk
      simpa using this

/-- Registering entries while there is room: every call returns nil, the count
grows by one per call, and every key registered before or by these calls is
found afterwards. -/
theorem addAll_spec (entries : List (String × Option Nat)) :
    ∀ p : Pools, p.cnt + entries.length ≤ p.max → p.max < 2 ^ 32 →
      (p.addAll entries).1 = List.replicate entries.length none
      ∧ (p.addAll entries).2.cnt = p.cnt + entries.length
      ∧ (p.addAll entries).2.max = p.max
      ∧ (∀ k, (k ∈ entries.map Prod.fst ∨ (p.GetConnTemplate k).2 = true) →
          ((p.addAll entries).2.GetConnTemplate k).2 = true) := by
  induction entries with
  | nil =>
    intro p _ _
    refine ⟨rfl, rfl, rfl, ?_⟩
    intro k hk
    rcases hk with hk | hk
    · simp at hk
    · exact hk
  | cons e rest ih =>
    intro p hroom hmax
    simp only [List.length_cons] at hroom
    have hnot : ¬ p.cnt ≥ p.max := by omega
    have hcnt : (p.AddConnTemplate e.1 e.2).2.cnt = p.cnt + 1 := by
      simp only [Pools.AddConnTemplate, hnot, if_false]
      omega
    have hmx : (p.AddConnTemplate e.1 e.2).2.max = p.max := by
      simp only [Pools.AddConnTemplate, hnot, if_false]
    have herr : (p.AddConnTemplate e.1 e.2).1 = none := by
      simp only [Pools.AddConnTemplate, hnot, if_false]
    obtain ⟨r1, r2, r3, r4⟩ := ih (p.AddConnTemplate e.1 e.2).2 (by omega) (by omega)
    simp only [Pools.addAll, List.length_cons, List.replicate_succ]
    refine ⟨by rw [herr, r1], by omega, by omega, ?_⟩
    intro k hk
    apply r4
    by_cases hin : k ∈ rest.map Prod.fst
    · exact Or.inl hin
    · right
      apply AddConnTemplate_keeps_found p e.1 e.2 k (by omega)
      rcases hk with hk | hk
      · left
        simp only [List.map_cons, List.mem_cons] at hk
        rcases hk with hk | hk
        · exact hk
        · exact absurd hk hin
      · exact Or.inr hk

/-- C13. For every capacity `m ≥ 1` and every `m` keys registered one after the
other in a fresh registry (distinct or not): each registration returns nil;
registering one more key returns the pool-full error and leaves the registry
(stored connections and count) as it was; and after `ReleaseConnTemplate` of
any registered key, registering a new key returns nil and the key is found. -/
theorem C13_Pools_full_rejects_then_accepts_after_release (m : Nat) (hm1 : 1 ≤ m)
    (hm : m < 2 ^ 32) (entries : List (String × Option Nat)) (hlen : entries.length = m)
    (extra : String) (conn : Option Nat) :
    ((NewWsPool m).addAll entries).1 = List.replicate m none
    ∧ ((NewWsPool m).addAll entries).2.AddConnTemplate extra conn
        = (some "connection pool full", ((NewWsPool m).addAll entries).2)
    ∧ (∀ k ∈ entries.map Prod.fst,
        ((((NewWsPool m).addAll entries).2.ReleaseConnTemplate k).AddConnTemplate extra conn).1
            = none
        ∧ ((((NewWsPool m).addAll entries).2.ReleaseConnTemplate k).AddConnTemplate extra
            conn).2.GetConnTemplate extra = (conn, true)) := by
  obtain ⟨r1, r2, r3, r4⟩ := addAll_spec entries (NewWsPool m)
    (by simp [NewWsPool, hlen]) (by simpa [NewWsPool] using hm)
  have hcnt : ((NewWsPool m).addAll entries).2.cnt = m := by
    rw [r2]
    simp [NewWsPool, hlen]
  have hmax : ((NewWsPool m).addAll entries).2.max = m := by
    rw [r3]
    rfl
  refine ⟨by rw [r1, hlen], ?_, ?_⟩
  · have hfull : ((NewWsPool m).addAll entries).2.cnt ≥ ((NewWsPool m).addAll entries).2.max := by
      omega
    simp only [Pools.AddConnTemplate, hfull, if_true]
  · intro k hk
    have hfound := r4 k (Or.inl hk)
    obtain ⟨kv, hmem, hkv⟩ := (GetConnTemplate_found_iff _ k).mp hfound
    have hsome : (((NewWsPool m).addAll entries).2.conns.find? (fun kv => kv.1 == k)).isSome := by
      rw [List.find?_isSome]
      exact ⟨kv, hmem, by simpa using hkv⟩
    obtain ⟨x, hx⟩ := Option.isSome_iff_exists.mp hsome
    have hrel : (((NewWsPool m).addAll entries).2.ReleaseConnTemplate k).cnt = m - 1
        ∧ (((NewWsPool m).addAll entries).2.ReleaseConnTemplate k).max = m := by
      simp only [Pools.ReleaseConnTemplate, hx]
      constructor
      · omega
      · exact hmax
    have hnot : ¬ (((NewWsPool m).addAll entries).2.ReleaseConnTemplate k).cnt
        ≥ (((NewWsPool m).addAll entries).2.ReleaseConnTemplate k).max := by
      omega
    constructor
    · simp only [Pools.AddConnTemplate, hnot, if_false]
    · simp [Pools.AddConnTemplate, hnot, Pools.GetConnTemplate]

/-- Witness of C13: the spec's case, capacity 2. -/
theorem C13_Pools_full_rejects_then_accepts_after_release_witness :
    ((NewWsPool 2).addAll [("a", some 1), ("b", some 2)]).1 = [none, none]
    ∧ ((NewWsPool 2).addAll [("a", some 1), ("b", some 2)]).2.AddConnTemplate "c" (some 3)
        = (some "connection pool full", ((NewWsPool 2).addAll [("a", some 1), ("b", some 2)]).2)
    ∧ (((((NewWsPool 2).addAll [("a", some 1), ("b", some 2)]).2.ReleaseConnTemplate
          "a").AddConnTemplate "c" (some 3)).1 = none
        ∧ ((((NewWsPool 2).addAll [("a", some 1), ("b", some 2)]).2.ReleaseConnTemplate
          "a").AddConnTemplate "c" (some 3)).2.GetConnTemplate "c" = (some 3, true)) :=
  let h := C13_Pools_full_rejects_then_accepts_after_release 2 (by decide) (by decide)
    [("a", some 1), ("b", some 2)] rfl "c" (some 3)
  ⟨h.1, h.2.1, h.2.2 "a" (by decide)⟩

/-! ## Theorems: inbound dispatcher and presence directory -/

/-- C14 (code defect). A record that is not valid JSON is written to the
dead-letter writer, but the iteration goes on: with `message` still nil the
next statement `message.ReceiverId` panics, so `StartReadMessage` never reaches
a next iteration. When the decoder fails after allocating `message` (a field of
the wrong type), the iteration goes on to the presence lookup and the registry
lookup for the undecoded record. -/
theorem C14_StartReadMessage_decode_failure_falls_through :
    sampleReceiver.StartReadMessage brokenJsonEnv "node-A" [] 3
      = (some (.panic "nil pointer dereference: message.ReceiverId"),
          [ReadEvent.dlqWrite sampleRecord none], [])
    ∧ sampleReceiver.StartReadMessage mistypedJsonEnv "node-A" [("bob", .meta bobOnNodeA)] 3
      = (some (.panic "nil pointer dereference: conn.WriteMessage"),
          [ReadEvent.dlqWrite sampleRecord none, ReadEvent.getStatus "bob",
           ReadEvent.getConn "bob-conn", ReadEvent.dlqWrite sampleRecord none],
          [("bob", .meta bobOnNodeA)])
    ∧ (sampleReceiver.StartReadMessage mistypedJsonEnv "node-A"
        [("bob", .meta bobOnNodeA)] 3).2.1.any ReadEvent.isLookup = true := by
  refine ⟨rfl, rfl, rfl⟩

/-- C15 (code defect). `StartReadMessage` never looks at its `nodeId`: a record
whose recipient is present on `node-B` is, on node `node-A`, written to the
local connection registered under the recipient's key and not sent to the
dead-letter writer. A record whose recipient has no presence record is written
to the dead-letter writer, after which the iteration goes on with the zero
`Meta`, fails the registry lookup, writes to the dead-letter writer again and
panics on the nil connection. -/
theorem C15_StartReadMessage_ignores_nodeId :
    sampleReceiver.StartReadMessage (sampleReadEnv bobPool) "node-A"
        [("bob", .meta bobOnNodeB)] 1
      = (none,
          [ReadEvent.getStatus "bob", ReadEvent.getConn "bob-conn",
           ReadEvent.connWrite 7 samplePayload none, ReadEvent.commit sampleRecord],
          [("bob", .meta bobOnNodeB)])
    ∧ (sampleReceiver.StartReadMessage (sampleReadEnv bobPool) "node-A"
        [("bob", .meta bobOnNodeB)] 1).2.1.any ReadEvent.isDlqWrite = false
    ∧ (sampleReceiver.StartReadMessage (sampleReadEnv bobPool) "node-A"
        [("bob", .meta bobOnNodeB)] 1).2.1.any ReadEvent.isConnWrite = true
    ∧ sampleReceiver.StartReadMessage (sampleReadEnv emptyPool) "node-A" [] 3
      = (some (.panic "nil pointer dereference: conn.WriteMessage"),
          [ReadEvent.getStatus "bob", ReadEvent.dlqWrite sampleRecord none,
           ReadEvent.getConn "", ReadEvent.dlqWrite sampleRecord none],
          []) := by
  refine ⟨rfl, rfl, rfl, rfl⟩

/-- C16 (code defect). The commit is the last statement of the iteration and is
not reached when the iteration panics: for a record whose recipient has no
registered connection, for a record whose recipient has no presence record and
for a record that is not valid JSON, `StartReadMessage` panics on a nil
dereference and `CommitMessages` is never called. It is called, once, after
the write, when a connection is registered. -/
theorem C16_StartReadMessage_no_commit_when_delivery_fails :
    sampleReceiver.StartReadMessage (sampleReadEnv emptyPool) "node-A"
        [("bob", .meta bobOnNodeA)] 3
      = (some (.panic "nil pointer dereference: conn.WriteMessage"),
          [ReadEvent.getStatus "bob", ReadEvent.getConn "bob-conn",
           ReadEvent.dlqWrite sampleRecord none],
          [("bob", .meta bobOnNodeA)])
    ∧ (sampleReceiver.StartReadMessage (sampleReadEnv emptyPool) "node-A"
        [("bob", .meta bobOnNodeA)] 3).2.1.any ReadEvent.isCommit = false
    ∧ (sampleReceiver.StartReadMessage (sampleReadEnv emptyPool) "node-A" [] 3).2.1.any
        ReadEvent.isCommit = false
    ∧ (sampleReceiver.StartReadMessage brokenJsonEnv "node-A" [] 3).2.1.any
        ReadEvent.isCommit = false
    ∧ (sampleReceiver.StartReadMessage (sampleReadEnv bobPool) "node-A"
        [("bob", .meta bobOnNodeA)] 1).2.1
      = [ReadEvent.getStatus "bob", ReadEvent.getConn "bob-conn",
         ReadEvent.connWrite 7 samplePayload none, ReadEvent.commit sampleRecord] := by
  refine ⟨rfl, rfl, rfl, rfl, rfl⟩

/-- C17 (code defect). On a cache miss `GetStatus` assigns the string read from
the shared store to the variable `meta` of type `any`, stores that string in
the local cache and then asserts `meta.(Meta)`: the call panics instead of
returning the record, and a second call finds the string in the cache and
panics too. This holds for every uid and every stored value. A uid whose
`Meta` is in the local cache is served from it. -/
theorem C17_GetStatus_cache_miss_store_hit_panics :
    bobInStore.GetStatus [] "bob"
      = (.panic "interface conversion: string is not utils.Meta",
          [("bob", .text "node-B|online")])
    ∧ bobInStore.GetStatus (bobInStore.GetStatus [] "bob").2 "bob"
      = (.panic "interface conversion: string is not utils.Meta",
          [("bob", .text "node-B|online")])
    ∧ (∀ (s : status) (statusMap : StatusMap) (uid stored : String),
        statusMap.Load uid = none → s.redisGet (PERFIX ++ uid) = .ok stored →
        s.GetStatus statusMap uid
          = (.panic "interface conversion: string is not utils.Meta",
              statusMap.Store uid (.text stored)))
    ∧ bobInStore.GetStatus [("bob", .meta bobOnNodeB)] "bob"
      = (.ret (.ok bobOnNodeB), [("bob", .meta bobOnNodeB)]) := by
  refine ⟨rfl, rfl, ?_, rfl⟩
  intro s statusMap uid stored hmiss hhit
  simp [status.GetStatus, hmiss, hhit]

/-! ## Theorems: per-conversation sequence -/

/-- Prepending the same string to two strings gives equal results only for
equal strings. -/
theorem String_append_left_cancel (p x y : String) : p ++ x = p ++ y ↔ x = y := by
  constructor
  · intro h
    have := congrArg String.data h
    simp only [String.data_append, List.append_cancel_left_eq] at this
    exact String.ext this
  · intro h
    rw [h]

/-- Deleting the entries of one key does not change what is found for another. -/
theorem find_filter_other_key (store : CounterStore) (key k : String) (hk : k ≠ key) :
    (store.filter (fun kv => !(kv.1 == key))).find? (fun kv => kv.1 == k)
      = store.find? (fun kv => kv.1 == k) := by
  induction store with
  | nil => rfl
  | cons a rest ih =>
    by_cases ha : a.1 = key
    · have hak : (a.1 == k) = false := by
        have : a.1 ≠ k := by rw [ha]; exact fun h => hk h.symm
        simpa using this
      simp only [List.filter_cons, ha, beq_self_eq_true, Bool.not_true, Bool.false_eq_true,
        if_false, List.find?_cons]
      rw [← ha, hak, ha]
      exact ih
    · have hne : (a.1 == key) = false := by simpa using ha
      simp only [List.filter_cons, hne, Bool.not_false, if_true, List.find?_cons, ih]

/-- C18, as stated, fails. The key is built from the ordered pair:
`GenerateSeq("alice", "bob")` increments `seq:alice:bob` and
`GenerateSeq("bob", "alice")` increments `seq:bob:alice`, a different counter:
on an empty store both calls return 1. -/
theorem C18_GenerateSeq_key_depends_on_order :
    seqKey "alice" "bob" ≠ seqKey "bob" "alice"
    ∧ IDGenerator.GenerateSeq { redisDown := none } [] "alice" "bob"
        = ((1, none), [("seq:alice:bob", 1)])
    ∧ IDGenerator.GenerateSeq { redisDown := none } [("seq:alice:bob", 1)] "bob" "alice"
        = ((1, none), [("seq:bob:alice", 1), ("seq:alice:bob", 1)]) := by
  refine ⟨by decide, rfl, rfl⟩

/-- C18, amended. With the shared store reachable and the counter below the
largest `int64`, `GenerateSeq(a, b)` increments the counter of the key
`seq:a:b`, built from the ordered pair with the sender first, returns its new
value and leaves every other counter as it was; `GenerateSeq(a, b)` and
`GenerateSeq(b, a)` use the same key exactly when `a:b` and `b:a` are the same
string (for instance when `a = b`). -/
theorem C18_GenerateSeq_increments_ordered_key (g : IDGenerator) (store : CounterStore)
    (a b : String) (hup : g.redisDown = none)
    (hroom : store.value (seqKey a b) < 2 ^ 63 - 1) :
    (g.GenerateSeq store a b).1 = (store.value (seqKey a b) + 1, none)
    ∧ (g.GenerateSeq store a b).2.value (seqKey a b) = store.value (seqKey a b) + 1
    ∧ (∀ k, k ≠ seqKey a b → (g.GenerateSeq store a b).2.value k = store.value k)
    ∧ (seqKey a b = seqKey b a ↔ a ++ ":" ++ b = b ++ ":" ++ a) := by
  have hnot : ¬ store.value (seqKey a b) ≥ 2 ^ 63 - 1 := by omega
  have hrun : g.GenerateSeq store a b
      = ((store.value (seqKey a b) + 1, none),
          (seqKey a b, store.value (seqKey a b) + 1)
            :: store.filter (fun kv => !(kv.1 == seqKey a b))) := by
    simp only [IDGenerator.GenerateSeq, hup, CounterStore.Incr, hnot, if_false]
  refine ⟨by rw [hrun], ?_, ?_, ?_⟩
  · rw [hrun]
    simp [CounterStore.value]
  · intro k hk
    rw [hrun]
    have hne : (seqKey a b == k) = false := by simpa using fun h => hk h.symm
    simp only [CounterStore.value, List.find?_cons, hne]
    rw [find_filter_other_key store (seqKey a b) k hk]
  · unfold seqKey
    rw [String.append_assoc, String.append_assoc, String.append_assoc, String.append_assoc,
      String_append_left_cancel, ← String.append_assoc, ← String.append_assoc]

/-- Witness of the amended C18: the first message from alice to bob. -/
theorem C18_GenerateSeq_increments_ordered_key_witness :
    (IDGenerator.GenerateSeq { redisDown := none } [] "alice" "bob").1
      = (CounterStore.value [] (seqKey "alice" "bob") + 1, none) :=
  (C18_GenerateSeq_increments_ordered_key { redisDown := none } [] "alice" "bob" rfl
    (by decide)).1

/-! ## Theorems: RPC connection pool -/

/-- The loop finds the first channel that is not in use. -/
theorem acquireIdle_first (now : Int) (pre : List grpcConnection) (ch : grpcConnection)
    (post : List grpcConnection) (hpre : ∀ x ∈ pre, x.inUse = true) (hch : ch.inUse = false) :
    acquireIdle now (pre ++ ch :: post)
      = some (ch.conn, pre ++ { ch with inUse := true, lastUsed := now } :: post) := by
  induction pre with
  | nil => simp [acquireIdle, hch]
  | cons a rest ih =>
    have ha : a.inUse = true := hpre a (List.mem_cons_self _ _)
    have hrest : ∀ x ∈ rest, x.inUse = true := fun x hx => hpre x (List.mem_cons_of_mem _ hx)
    simp [acquireIdle, ha, ih hrest]

/-- The loop finds nothing when every channel is in use. -/
theorem acquireIdle_all_busy (now : Int) (l : List grpcConnection)
    (h : ∀ x ∈ l, x.inUse = true) : acquireIdle now l = none := by
  induction l with
  | nil => rfl
  | cons a rest ih =>
    have ha : a.inUse = true := h a (List.mem_cons_self _ _)
    have hrest : ∀ x ∈ rest, x.inUse = true := fun x hx => h x (List.mem_cons_of_mem _ hx)
    simp [acquireIdle, ha, ih hrest]

/-- Marking a channel in use does not change the number of channels. -/
theorem acquireIdle_length (now : Int) (l : List grpcConnection) :
    ∀ (c : Option Nat) (l' : List grpcConnection),
      acquireIdle now l = some (c, l') → l'.length = l.length := by
  induction l with
  | nil =>
    intro c l' h
    simp [acquireIdle] at h
  | cons a rest ih =>
    intro c l' h
    by_cases ha : a.inUse = true
    · simp only [acquireIdle, ha, Bool.not_true, Bool.false_eq_true, if_false] at h
      cases hr : acquireIdle now rest with
      | none => simp [hr] at h
      | some r =>
        simp only [hr, Option.map_some', Option.some.injEq, Prod.mk.injEq] at h
        rw [← h.2]
        simp [ih r.1 r.2 hr]
    · have ha' : a.inUse = false := by simpa using ha
      simp only [acquireIdle, ha', Bool.not_false, if_true, Option.some.injEq,
        Prod.mk.injEq] at h
      rw [← h.2]
      simp

/-- `GetConnection` when the address has a channel that is not in use. -/
theorem GetConnection_idle (p : grpcClientPool) (io : DialIO) (addr : String)
    (l : List grpcConnection) (c : Option Nat) (l' : List grpcConnection)
    (hl : p.connections addr = some l) (hi : acquireIdle io.now l = some (c, l')) :
    p.GetConnection io addr = (.ok c, p.setConnections addr l') := by
  simp [grpcClientPool.GetConnection, hl, hi]

/-- `GetConnection` when every channel of the address is in use, there is room
for one more and the new channel can be created. -/
theorem GetConnection_grow (p : grpcClientPool) (io : DialIO) (addr : String)
    (l : List grpcConnection) (nc : grpcConnection)
    (hl : p.connections addr = some l) (hi : acquireIdle io.now l = none)
    (hroom : Int.ofNat l.length < p.config.MaxConn)
    (hnew : p.createConnection io addr = .ok nc) :
    p.GetConnection io addr
      = (.ok nc.conn,
          p.setConnections addr (l ++ [{ nc with inUse := true, lastUsed := io.now }])) := by
  have hroom' : (l.length : Int) < p.config.MaxConn := hroom
  simp [grpcClientPool.GetConnection, hl, hi, hroom', hnew]

/-- `GetConnection` when every channel of the address is in use and the limit
is reached. -/
theorem GetConnection_full (p : grpcClientPool) (io : DialIO) (addr : String)
    (l : List grpcConnection)
    (hl : p.connections addr = some l) (hi : acquireIdle io.now l = none)
    (hfull : ¬ Int.ofNat l.length < p.config.MaxConn) :
    p.GetConnection io addr
      = (.error "all connections are in use and max connection limit reached", p) := by
  have hfull' : ¬ (l.length : Int) < p.config.MaxConn := hfull
  simp only [grpcClientPool.GetConnection, hl, hi, Int.ofNat_eq_coe, hfull', if_false]

/-- `GetConnection` on an address the pool has no entry for. -/
theorem GetConnection_first (p : grpcClientPool) (io : DialIO) (addr : String)
    (nc : grpcConnection) (hl : p.connections addr = none)
    (hnew : p.createConnection io addr = .ok nc) :
    p.GetConnection io addr
      = (.ok nc.conn,
          p.setConnections addr [{ nc with inUse := true, lastUsed := io.now }]) := by
  simp [grpcClientPool.GetConnection, hl, hnew]

/-- `GetConnection` when a channel has to be created and cannot be. -/
theorem GetConnection_dial_failed (p : grpcClientPool) (io : DialIO) (addr : String)
    (e : String) (hnew : p.createConnection io addr = .error e)
    (hl : p.connections addr = none
      ∨ ∃ l, p.connections addr = some l ∧ acquireIdle io.now l = none
          ∧ Int.ofNat l.length < p.config.MaxConn) :
    p.GetConnection io addr = (.error e, p) := by
  rcases hl with hl | ⟨l, hl, hi, hroom⟩
  · simp [grpcClientPool.GetConnection, hl, hnew]
  · have hroom' : (l.length : Int) < p.config.MaxConn := hroom
    simp [grpcClientPool.GetConnection, hl, hi, hroom', hnew]

/-- Replacing the list of one address: the counts afterwards. -/
theorem setConnections_count (p : grpcClientPool) (addr : String) (l : List grpcConnection)
    (a : String) :
    (p.setConnections addr l).GetConnectionCount a
      = if a = addr then l.length else p.GetConnectionCount a := by
  by_cases ha : a = addr
  · simp [grpcClientPool.GetConnectionCount, grpcClientPool.setConnections, ha]
  · simp [grpcClientPool.GetConnectionCount, grpcClientPool.setConnections, ha]

/-- One `GetConnection` keeps every per-address channel count within `MaxConn`,
and keeps the configuration. -/
theorem GetConnection_count_bound (p : grpcClientPool) (io : DialIO) (addr : String)
    (hmax : 1 ≤ p.config.MaxConn)
    (hinv : ∀ a, Int.ofNat (p.GetConnectionCount a) ≤ p.config.MaxConn) :
    (p.GetConnection io addr).2.config = p.config
    ∧ ∀ a, Int.ofNat ((p.GetConnection io addr).2.GetConnectionCount a) ≤ p.config.MaxConn := by
  have hself := hinv addr
  have hset : ∀ l : List grpcConnection, Int.ofNat l.length ≤ p.config.MaxConn →
      ∀ a, Int.ofNat ((p.setConnections addr l).GetConnectionCount a) ≤ p.config.MaxConn := by
    intro l hl a
    rw [setConnections_count]
    by_cases ha : a = addr
    · simpa [ha] using hl
    · simpa [ha] using hinv a
  cases hc : p.connections addr with
  | none =>
    cases hn : p.createConnection io addr with
    | error e =>
      rw [GetConnection_dial_failed p io addr e hn (Or.inl hc)]
      exact ⟨rfl, hinv⟩
    | ok nc =>
      rw [GetConnection_first p io addr nc hc hn]
      exact ⟨rfl, hset _ (by simpa using hmax)⟩
  | some l =>
    simp only [grpcClientPool.GetConnectionCount, hc] at hself
    cases hi : acquireIdle io.now l with
    | some r =>
      obtain ⟨c, l'⟩ := r
      have hlen := acquireIdle_length io.now l c l' hi
      rw [GetConnection_idle p io addr l c l' hc hi]
      exact ⟨rfl, hset l' (by rw [hlen]; exact hself)⟩
    | none =>
      by_cases hroom : Int.ofNat l.length < p.config.MaxConn
      · cases hn : p.createConnection io addr with
        | error e =>
          rw [GetConnection_dial_failed p io addr e hn (Or.inr ⟨l, hc, hi, hroom⟩)]
          exact ⟨rfl, hinv⟩
        | ok nc =>
          rw [GetConnection_grow p io addr l nc hc hi hroom hn]
          refine ⟨rfl, hset _ ?_⟩
          simp only [List.length_append, List.length_singleton, Int.ofNat_eq_coe] at hroom ⊢
          omega
      · rw [GetConnection_full p io addr l hc hi hroom]
        exact ⟨rfl, hinv⟩

/-- Every sequence of `GetConnection` calls keeps the counts within `MaxConn`. -/
theorem getSeq_count_bound (reqs : List (String × DialIO)) :
    ∀ p : grpcClientPool, 1 ≤ p.config.MaxConn →
      (∀ a, Int.ofNat (p.GetConnectionCount a) ≤ p.config.MaxConn) →
      (p.getSeq reqs).config = p.config
      ∧ ∀ a, Int.ofNat ((p.getSeq reqs).GetConnectionCount a) ≤ p.config.MaxConn := by
  induction reqs with
  | nil =>
    intro p _ hinv
    exact ⟨rfl, hinv⟩
  | cons req rest ih =>
    intro p hmax hinv
    obtain ⟨hcfg, hstep⟩ := GetConnection_count_bound p req.2 req.1 hmax hinv
    have := ih (p.GetConnection req.2 req.1).2 (by rw [hcfg]; exact hmax)
      (by rw [hcfg]; exact hstep)
    rw [hcfg] at this
    exact this

/-- A pool built by `NewgRPCWorkPool` is empty and allows at least one channel
per address. -/
theorem NewgRPCWorkPool_ok (config : GRPCClientConfig) (p0 : grpcClientPool)
    (hnew : NewgRPCWorkPool (some config) = .ok p0) :
    1 ≤ p0.config.MaxConn ∧ ∀ a, p0.connections a = none := by
  unfold NewgRPCWorkPool at hnew
  by_cases haddr : config.Addr = ""
  · simp [haddr] at hnew
  · simp only [haddr, if_false] at hnew
    have hp := (Except.ok.inj hnew).symm
    subst hp
    refine ⟨?_, fun _ => rfl⟩
    simp only [GRPCClientConfig.withDefaults]
    split <;> omega

/-- With the credentials loaded and the dial answered, `createConnection`
returns a fresh channel that is not yet in use. -/
theorem createConnection_ok (p : grpcClientPool) (io : DialIO) (addr : String) (c : Nat)
    (htls : p.config.TLS = true → io.loadTLS = none) (hdial : io.dial = .ok c) :
    p.createConnection io addr = .ok { conn := some c, inUse := false, lastUsed := io.now } := by
  unfold grpcClientPool.createConnection
  by_cases ht : p.config.TLS = true
  · simp [ht, htls ht, hdial]
  · simp [ht, hdial]

/-- The stretches of `GetConnection`, run one after the other without another
call in between, are the method `GetConnection`. -/
theorem runGetConnection_eq (p : grpcClientPool) (io : DialIO) (addr : String) :
    p.runGetConnection io addr
      = (.done (p.GetConnection io addr).1, (p.GetConnection io addr).2) := by
  unfold grpcClientPool.runGetConnection
  cases hc : p.connections addr with
  | none =>
    cases hn : p.createConnection io addr with
    | error e =>
      simp [grpcClientPool.stepGetConnection, grpcClientPool.GetConnection, hc, hn]
    | ok nc =>
      simp [grpcClientPool.stepGetConnection, grpcClientPool.GetConnection, hc, hn]
  | some l =>
    cases hi : acquireIdle io.now l with
    | some r =>
      simp [grpcClientPool.stepGetConnection, grpcClientPool.GetConnection, hc, hi]
    | none =>
      by_cases hroom : (l.length : Int) < p.config.MaxConn
      · cases hn : p.createConnection io addr with
        | error e =>
          simp [grpcClientPool.stepGetConnection, grpcClientPool.GetConnection, hc, hi, hroom,
            hn]
        | ok nc =>
          simp [grpcClientPool.stepGetConnection, grpcClientPool.GetConnection, hc, hi, hroom,
            hn]
      · simp [grpcClientPool.stepGetConnection, grpcClientPool.GetConnection, hc, hi, hroom]

/-- What `GetConnection` returns and leaves behind when no other call runs in
between and the dial succeeds, in the three cases of the address's list. -/
theorem GetConnection_cases (p : grpcClientPool) (io : DialIO) (addr : String) (c : Nat)
    (chans : List grpcConnection) (hmax : 1 ≤ p.config.MaxConn)
    (hch : chans = (p.connections addr).getD [])
    (htls : p.config.TLS = true → io.loadTLS = none) (hdial : io.dial = .ok c) :
    (p.GetConnection io addr).2.config = p.config
    ∧ (∀ a, a ≠ addr → (p.GetConnection io addr).2.connections a = p.connections a)
    ∧ (∀ pre ch post, chans = pre ++ ch :: post → (∀ x ∈ pre, x.inUse = true) →
        ch.inUse = false →
        (p.GetConnection io addr).1 = .ok ch.conn
        ∧ (p.GetConnection io addr).2.connections addr
          = some (pre ++ { conn := ch.conn, inUse := true, lastUsed := io.now } :: post))
    ∧ ((∀ x ∈ chans, x.inUse = true) → Int.ofNat chans.length < p.config.MaxConn →
        (p.GetConnection io addr).1 = .ok (some c)
        ∧ (p.GetConnection io addr).2.connections addr
          = some (chans ++ [{ conn := some c, inUse := true, lastUsed := io.now }])
        ∧ (p.GetConnection io addr).2.GetConnectionCount addr = chans.length + 1)
    ∧ ((∀ x ∈ chans, x.inUse = true) → ¬ Int.ofNat chans.length < p.config.MaxConn →
        p.GetConnection io addr
          = (.error "all connections are in use and max connection limit reached", p)) := by
  have hcreate := createConnection_ok p io addr c htls hdial
  have hother : ∀ (l : List grpcConnection) (a : String), a ≠ addr →
      (p.setConnections addr l).connections a = p.connections a := by
    intro l a ha
    simp [grpcClientPool.setConnections, ha]
  have hself : ∀ l : List grpcConnection, (p.setConnections addr l).connections addr = some l := by
    intro l
    simp [grpcClientPool.setConnections]
  cases hc : p.connections addr with
  | none =>
    have hnil : chans = [] := by rw [hch, hc]; rfl
    subst hnil
    have hrun := GetConnection_first p io addr _ hc hcreate
    refine ⟨by rw [hrun]; rfl, ?_, ?_, ?_, ?_⟩
    · intro a ha
      rw [hrun]
      exact hother _ a ha
    · intro pre ch post hsplit
      simp at hsplit
    · intro _ _
      rw [hrun]
      refine ⟨rfl, hself _, ?_⟩
      simp [grpcClientPool.GetConnectionCount, hself]
    · intro _ hfull
      exact absurd (show Int.ofNat ([] : List grpcConnection).length < p.config.MaxConn by
        simp only [List.length_nil, Int.ofNat_eq_coe, Nat.cast_zero]; omega) hfull
  | some l =>
    have hl : chans = l := by rw [hch, hc]; rfl
    subst hl
    cases hi : acquireIdle io.now chans with
    | some r =>
      obtain ⟨cr, l'⟩ := r
      have hrun := GetConnection_idle p io addr chans cr l' hc hi
      refine ⟨by rw [hrun]; rfl, ?_, ?_, ?_, ?_⟩
      · intro a ha
        rw [hrun]
        exact hother _ a ha
      · intro pre ch post hsplit hpre hidle
        have hfirst := acquireIdle_first io.now pre ch post hpre hidle
        rw [← hsplit, hi] at hfirst
        have hpair := Option.some.inj hfirst
        have h1 : cr = ch.conn := congrArg Prod.fst hpair
        have h2 : l' = pre ++ { ch with inUse := true, lastUsed := io.now } :: post :=
          congrArg Prod.snd hpair
        rw [hrun]
        exact ⟨by rw [h1], by rw [hself, h2]⟩
      · intro hbusy _
        rw [acquireIdle_all_busy io.now chans hbusy] at hi
        exact Option.noConfusion hi
      · intro hbusy _
        rw [acquireIdle_all_busy io.now chans hbusy] at hi
        exact Option.noConfusion hi
    | none =>
      by_cases hroom : Int.ofNat chans.length < p.config.MaxConn
      · have hrun := GetConnection_grow p io addr chans _ hc hi hroom hcreate
        refine ⟨by rw [hrun]; rfl, ?_, ?_, ?_, ?_⟩
        · intro a ha
          rw [hrun]
          exact hother _ a ha
        · intro pre ch post hsplit hpre hidle
          rw [hsplit, acquireIdle_first io.now pre ch post hpre hidle] at hi
          exact Option.noConfusion hi
        · intro _ _
          rw [hrun]
          refine ⟨rfl, hself _, ?_⟩
          simp [grpcClientPool.GetConnectionCount, hself]
        · intro _ hfull
          exact absurd hroom hfull
      · have hrun := GetConnection_full p io addr chans hc hi hroom
        refine ⟨by rw [hrun], ?_, ?_, ?_, ?_⟩
        · intro a _
          rw [hrun]
        · intro pre ch post hsplit hpre hidle
          rw [hsplit, acquireIdle_first io.now pre ch post hpre hidle] at hi
          exact Option.noConfusion hi
        · intro _ hr
          exact absurd hr hroom
        · intro _ _
          exact hrun

/-- C19 (code defect). The pool of `NewgRPCWorkPool` with `MaxConn = 2` holds one
channel of the address, in use. Two calls of `GetConnection` for that address
overlap: each finds the channel in use, each reads one channel, fewer than
`MaxConn`, under the read lock and releases it, each dials, and each appends
under the write lock. Both calls return a channel and the address ends with
three channels, more than `MaxConn`: the room test and the append are two
critical sections. Run without another call in between, the stretches are the
method `GetConnection`, which reuses the first channel that is not in use and
marks it, else appends one dialled channel in use while the count is below
`MaxConn`, else returns the pool-exhausted error and leaves the pool as it is;
over calls that do not overlap the count of every address stays within
`MaxConn`. -/
theorem C19_GetConnection_overlapping_calls_exceed_MaxConn :
    NewgRPCWorkPool (some sampleGrpcConfig) = .ok samplePool
    ∧ samplePool.config.MaxConn = 2
    ∧ busyPool.connections "10.0.0.9:50051"
      = some [{ conn := some 101, inUse := true, lastUsed := 1 }]
    ∧ grpcClientPool.overlap secondDial thirdDial "10.0.0.9:50051" [true, false]
        (.start, .start, busyPool) = (.room, .room, busyPool)
    ∧ (grpcClientPool.overlap secondDial thirdDial "10.0.0.9:50051" alternating
        (.start, .start, busyPool)).1 = .done (.ok (some 102))
    ∧ (grpcClientPool.overlap secondDial thirdDial "10.0.0.9:50051" alternating
        (.start, .start, busyPool)).2.1 = .done (.ok (some 103))
    ∧ (grpcClientPool.overlap secondDial thirdDial "10.0.0.9:50051" alternating
        (.start, .start, busyPool)).2.2.connections "10.0.0.9:50051"
      = some [{ conn := some 101, inUse := true, lastUsed := 1 },
              { conn := some 102, inUse := true, lastUsed := 2 },
              { conn := some 103, inUse := true, lastUsed := 3 }]
    ∧ (grpcClientPool.overlap secondDial thirdDial "10.0.0.9:50051" alternating
        (.start, .start, busyPool)).2.2.GetConnectionCount "10.0.0.9:50051" = 3
    ∧ (grpcClientPool.overlap secondDial thirdDial "10.0.0.9:50051" alternating
        (.start, .start, busyPool)).2.2.config.MaxConn = 2
    ∧ (∀ (p : grpcClientPool) (io : DialIO) (addr : String),
        p.runGetConnection io addr
          = (.done (p.GetConnection io addr).1, (p.GetConnection io addr).2))
    ∧ (∀ (config : GRPCClientConfig) (p0 : grpcClientPool),
        NewgRPCWorkPool (some config) = .ok p0 →
        1 ≤ p0.config.MaxConn
        ∧ (∀ a, p0.GetConnectionCount a = 0)
        ∧ (∀ (reqs : List (String × DialIO)) (a : String),
            Int.ofNat ((p0.getSeq reqs).GetConnectionCount a) ≤ p0.config.MaxConn))
    ∧ (∀ (p : grpcClientPool) (io : DialIO) (addr : String) (c : Nat)
        (chans : List grpcConnection),
        1 ≤ p.config.MaxConn → chans = (p.connections addr).getD [] →
        (p.config.TLS = true → io.loadTLS = none) → io.dial = .ok c →
        (p.GetConnection io addr).2.config = p.config
        ∧ (∀ a, a ≠ addr → (p.GetConnection io addr).2.connections a = p.connections a)
        ∧ (∀ pre ch post, chans = pre ++ ch :: post → (∀ x ∈ pre, x.inUse = true) →
            ch.inUse = false →
            (p.GetConnection io addr).1 = .ok ch.conn
            ∧ (p.GetConnection io addr).2.connections addr
              = some (pre ++ { conn := ch.conn, inUse := true, lastUsed := io.now } :: post))
        ∧ ((∀ x ∈ chans, x.inUse = true) → Int.ofNat chans.length < p.config.MaxConn →
            (p.GetConnection io addr).1 = .ok (some c)
            ∧ (p.GetConnection io addr).2.connections addr
              = some (chans ++ [{ conn := some c, inUse := true, lastUsed := io.now }])
            ∧ (p.GetConnection io addr).2.GetConnectionCount addr = chans.length + 1)
        ∧ ((∀ x ∈ chans, x.inUse = true) → ¬ Int.ofNat chans.length < p.config.MaxConn →
            p.GetConnection io addr
              = (.error "all connections are in use and max connection limit reached", p))) := by
  refine ⟨rfl, rfl, rfl, rfl, rfl, rfl, rfl, rfl, rfl, runGetConnection_eq, ?_, ?_⟩
  · intro config p0 hnew
    obtain ⟨hmax, hempty⟩ := NewgRPCWorkPool_ok config p0 hnew
    have hzero : ∀ a, p0.GetConnectionCount a = 0 := by
      intro a
      simp [grpcClientPool.GetConnectionCount, hempty a]
    refine ⟨hmax, hzero, ?_⟩
    intro reqs a
    have hinv : ∀ a, Int.ofNat (p0.GetConnectionCount a) ≤ p0.config.MaxConn := by
      intro a
      rw [hzero a]
      simp only [Int.ofNat_eq_coe, Nat.cast_zero]
      omega
    exact (getSeq_count_bound reqs p0 hmax hinv).2 a
  · intro p io addr c chans hmax hch htls hdial
    exact GetConnection_cases p io addr c chans hmax hch htls hdial

/-! ## Theorems: balancer factory -/

/-- C20. `NewBalancer(typ, nodeInfo)`: for `typ = "hash"` and a non-empty
node-to-weight map it returns a `*HashBalancer` holding the continuum that
`ketama.New` built (the library call succeeding); for `typ = "roundrobin"` and a
non-empty node list it returns a `*RoundRobinBalancer` on that list with the
counter at 0; for any other `typ`, and for a `nodeInfo` whose type does not
match `typ`, it returns an error that wraps `ErrBalancerType`; for a matching
but empty node set it returns `ErrEmptyNodes`. -/
theorem C20_NewBalancer_builds_by_type
    (ketamaNew : List (String × Int) → Except String (Option Continuum))
    (typ : String) (nodeInfo : NodeInfo) :
    (∀ nodes continuum, typ = "hash" → nodeInfo = .weights nodes → nodes ≠ [] →
        ketamaNew nodes = .ok continuum →
        NewBalancer ketamaNew typ nodeInfo
          = .ok (.hash { continuum := continuum, name := "hash-balancer" }))
    ∧ (∀ nodes, typ = "roundrobin" → nodeInfo = .list nodes → nodes ≠ [] →
        NewBalancer ketamaNew typ nodeInfo
          = .ok (.roundRobin { index := 0, nodes := nodes, name := "roundrobin-balancer" }))
    ∧ (typ ≠ "hash" → typ ≠ "roundrobin" →
        ∃ e, NewBalancer ketamaNew typ nodeInfo = .error e
          ∧ e.Is .ErrBalancerType = true)
    ∧ (typ = "hash" → (∀ nodes, nodeInfo ≠ .weights nodes) →
        ∃ e, NewBalancer ketamaNew typ nodeInfo = .error e
          ∧ e.Is .ErrBalancerType = true)
    ∧ (typ = "roundrobin" → (∀ nodes, nodeInfo ≠ .list nodes) →
        ∃ e, NewBalancer ketamaNew typ nodeInfo = .error e
          ∧ e.Is .ErrBalancerType = true)
    ∧ (typ = "hash" → nodeInfo = .weights [] →
        NewBalancer ketamaNew typ nodeInfo = .error .ErrEmptyNodes)
    ∧ (typ = "roundrobin" → nodeInfo = .list [] →
        NewBalancer ketamaNew typ nodeInfo = .error .ErrEmptyNodes) := by
  refine ⟨?_, ?_, ?_, ?_, ?_, ?_, ?_⟩
  · intro nodes continuum ht hn hne hk
    have hlen : ¬ nodes.length = 0 := fun h => hne (List.length_eq_zero.mp h)
    subst ht
    subst hn
    simp [NewBalancer, NewHashBalancer, hlen, hk, Except.map]
  · intro nodes ht hn hne
    have hlen : ¬ nodes.length = 0 := fun h => hne (List.length_eq_zero.mp h)
    subst ht
    subst hn
    simp [NewBalancer, NewRoundRobinBalancer, hlen, Except.map]
  · intro h1 h2
    exact ⟨.wrap ("unsupported balancer type: " ++ typ) .ErrBalancerType,
      by simp [NewBalancer, h1, h2], by simp [BalancerErr.Is]⟩
  · intro ht hshape
    subst ht
    cases nodeInfo with
    | weights nodes => exact absurd rfl (hshape nodes)
    | list l =>
      exact ⟨.wrap "hash balancer requires map[string]int node info" .ErrBalancerType,
        by simp [NewBalancer], by simp [BalancerErr.Is]⟩
    | other =>
      exact ⟨.wrap "hash balancer requires map[string]int node info" .ErrBalancerType,
        by simp [NewBalancer], by simp [BalancerErr.Is]⟩
  · intro ht hshape
    subst ht
    cases nodeInfo with
    | weights nodes =>
      exact ⟨.wrap "roundrobin balancer requires []string node info" .ErrBalancerType,
        by simp [NewBalancer], by simp [BalancerErr.Is]⟩
    | list l => exact absurd rfl (hshape l)
    | other =>
      exact ⟨.wrap "roundrobin balancer requires []string node info" .ErrBalancerType,
        by simp [NewBalancer], by simp [BalancerErr.Is]⟩
  · intro ht hn
    subst ht
    subst hn
    simp [NewBalancer, NewHashBalancer, Except.map]
  · intro ht hn
    subst ht
    subst hn
    simp [NewBalancer, NewRoundRobinBalancer, Except.map]

/-- Witness of C20: the round-robin case of `TestNewBalancerFactory`. -/
theorem C20_NewBalancer_builds_by_type_witness :
    NewBalancer (fun _ => .ok none) "roundrobin" (.list ["127.0.0.1:8080"])
      = .ok (.roundRobin
          { index := 0, nodes := ["127.0.0.1:8080"], name := "roundrobin-balancer" }) :=
  (C20_NewBalancer_builds_by_type (fun _ => .ok none) "roundrobin"
    (.list ["127.0.0.1:8080"])).2.1 ["127.0.0.1:8080"] rfl rfl (by decide)

/-! ## Theorems: selector updates and hash stability -/

/-- C21. For both balancers: `UpdateNodes` returns an error for node info of
the wrong dynamic type and for an empty node set, and whenever it returns an
error (these cases and, for the hash balancer, a failing `ketama.New`) the
balancer it leaves behind is the one it was called on: node list and counter
of the round-robin balancer, continuum of the hash balancer. Hence every
following `Balance` returns what it returns without the failed update. -/
theorem C21_UpdateNodes_error_keeps_state
    (ketamaNew : List (String × Int) → Except String (Option Continuum)) :
    (∀ (r : RoundRobinBalancer) (nodes : NodeInfo) (e : BalancerErr),
        (r.UpdateNodes nodes).1 = some e →
        (r.UpdateNodes nodes).2 = r
        ∧ ∀ keys, (r.UpdateNodes nodes).2.balanceSeq keys = r.balanceSeq keys)
    ∧ (∀ (h : HashBalancer) (nodes : NodeInfo) (e : BalancerErr),
        (h.UpdateNodes ketamaNew nodes).1 = some e →
        (h.UpdateNodes ketamaNew nodes).2 = h
        ∧ ∀ key, (h.UpdateNodes ketamaNew nodes).2.Balance key = h.Balance key)
    ∧ (∀ (r : RoundRobinBalancer) (nodes : NodeInfo),
        ((∀ l, nodes ≠ .list l) ∨ nodes = .list []) → (r.UpdateNodes nodes).1 ≠ none)
    ∧ (∀ (h : HashBalancer) (nodes : NodeInfo),
        ((∀ m, nodes ≠ .weights m) ∨ nodes = .weights []) →
        (h.UpdateNodes ketamaNew nodes).1 ≠ none) := by
  refine ⟨?_, ?_, ?_, ?_⟩
  · intro r nodes e herr
    have hsame : (r.UpdateNodes nodes).2 = r := by
      cases nodes with
      | weights m => rfl
      | other => rfl
      | list l =>
        by_cases hl : l.length = 0
        · simp [RoundRobinBalancer.UpdateNodes, hl]
        · simp [RoundRobinBalancer.UpdateNodes, hl] at herr
    exact ⟨hsame, fun keys => by rw [hsame]⟩
  · intro h nodes e herr
    have hsame : (h.UpdateNodes ketamaNew nodes).2 = h := by
      cases nodes with
      | list l => rfl
      | other => rfl
      | weights m =>
        by_cases hm : m.length = 0
        · simp [HashBalancer.UpdateNodes, hm]
        · cases hk : ketamaNew m with
          | error err => simp [HashBalancer.UpdateNodes, hm, hk]
          | ok c => simp [HashBalancer.UpdateNodes, hm, hk] at herr
    exact ⟨hsame, fun key => by rw [hsame]⟩
  · intro r nodes hbad
    cases nodes with
    | weights m => simp [RoundRobinBalancer.UpdateNodes]
    | other => simp [RoundRobinBalancer.UpdateNodes]
    | list l =>
      rcases hbad with hbad | hbad
      · exact absurd rfl (hbad l)
      · have hl : l = [] := by injection hbad
        subst hl
        simp [RoundRobinBalancer.UpdateNodes]
  · intro h nodes hbad
    cases nodes with
    | list l => simp [HashBalancer.UpdateNodes]
    | other => simp [HashBalancer.UpdateNodes]
    | weights m =>
      rcases hbad with hbad | hbad
      · exact absurd rfl (hbad m)
      · have hm : m = [] := by injection hbad
        subst hm
        simp [HashBalancer.UpdateNodes]

/-- Witness of C21: the failed update of `TestBalancerErrorHandling`, a
node-to-weight map handed to a round-robin balancer. -/
theorem C21_UpdateNodes_error_keeps_state_witness :
    (({ index := 4, nodes := ["127.0.0.1:8080"], name := "roundrobin-balancer" }
        : RoundRobinBalancer).UpdateNodes (.weights [("invalid", 1)])).2
      = { index := 4, nodes := ["127.0.0.1:8080"], name := "roundrobin-balancer" } :=
  ((C21_UpdateNodes_error_keeps_state (fun _ => .ok none)).1
    { index := 4, nodes := ["127.0.0.1:8080"], name := "roundrobin-balancer" }
    (.weights [("invalid", 1)])
    (.wrap "roundrobin balancer requires []string node info" .ErrBalancerType) rfl).1

/-! ## Theorems: broker wiring and cancellation -/

/-- A string followed by a non-empty string is not empty. -/
theorem String_append_ne_empty (t s : String) (hs : s ≠ "") : t ++ s ≠ "" := by
  intro h
  apply hs
  have hd := congrArg String.data h
  simp only [String.data_append] at hd
  have hnil : s.data = [] := (List.append_eq_nil.mp hd).2
  exact String.ext hnil

/-- C23 (code defect). `main` hands `NewKafak` a `DLQTopic` that already is the
topic followed by the suffix, and `NewKafak` puts the topic in front of it once
more: with topic `im-message` and suffix `-dlq` the dead-letter writer is
created on `im-messageim-message-dlq`, not on `im-message-dlq`; for every topic
`T` and non-empty suffix `S` it is created on `T ++ (T ++ S)`. The wiring of
`TestKafka`, which passes the suffix alone, gives `T ++ S`. -/
theorem C23_NewKafak_main_doubles_topic :
    (NewKafak KafkaClients.initial (mainKafkaConf sampleKafkaSettings)).dlqWriter
      = some "im-messageim-message-dlq"
    ∧ (NewKafak KafkaClients.initial (mainKafkaConf sampleKafkaSettings)).dlqWriter
      ≠ some (sampleKafkaSettings.Topic ++ sampleKafkaSettings.TopicSuffix)
    ∧ (∀ cfg : KafkaSettings, cfg.TopicSuffix ≠ "" →
        (NewKafak KafkaClients.initial (mainKafkaConf cfg)).dlqWriter
          = some (cfg.Topic ++ (cfg.Topic ++ cfg.TopicSuffix)))
    ∧ (∀ cfg : KafkaSettings, cfg.TopicSuffix ≠ "" →
        (NewKafak KafkaClients.initial (testKafkaConf cfg)).dlqWriter
          = some (cfg.Topic ++ cfg.TopicSuffix)) := by
  refine ⟨by decide, by decide, ?_, ?_⟩
  · intro cfg hs
    have hne := String_append_ne_empty cfg.Topic cfg.TopicSuffix hs
    simp [NewKafak, KafkaClients.initial, mainKafkaConf, hne]
  · intro cfg hs
    simp [NewKafak, KafkaClients.initial, testKafkaConf, hs]

/-- C24 (code defect). The wait of the first retry is `time.After(0)`: with the
context already cancelled both cases of the `select` are ready, and on a run
where the timer case is picked the cancellation is not honoured there. With a
broker that keeps failing, `SendMessage` publishes once more to the primary
topic before the next wait returns the cancellation error; with a broker that
recovers, the retry succeeds, the dead-letter write follows and `SendMessage`
returns nil. When the `select` picks `ctx.Done()` nothing further is published. -/
theorem C24_SendMessage_zero_wait_races_cancellation :
    downProducer.SendMessage cancelledTimerFirst (.bytes samplePayload) "node-B"
      = (.ret (some "context canceled"),
          [Event.writerWrite "node-B" samplePayload (some "broker down"),
           Event.writerWrite "node-B" samplePayload (some "broker down")])
    ∧ flakyProducer.SendMessage cancelledTimerFirst (.bytes samplePayload) "node-B"
      = (.ret none,
          [Event.writerWrite "node-B" samplePayload (some "write timeout"),
           Event.writerWrite "node-B" samplePayload none,
           Event.dlqWrite "node-B" samplePayload none])
    ∧ (∀ (p : producer) (ctx : Context) (value : Bytes) (nodeId e0 : String),
        p.writer 0 = some e0 → ctx.selectDone 0 = true →
        p.SendMessage ctx (.bytes value) nodeId
          = (.ret (some ctx.err), [Event.writerWrite nodeId value (some e0)])) := by
  refine ⟨rfl, rfl, ?_⟩
  intro p ctx value nodeId e0 h0 hdone
  simp [producer.SendMessage, producer.retryLoop, GoAny.assertBytes, MAX_SEND_RETRY, h0, hdone]

/-! ## Theorems: envelope validation -/

/-- C25 (code defect). The envelope with `message_type` sticker is not answered
with an error: `validate.Struct` panics on the tag of `MessageType`, which is
written `required, oneof=...` with a space after the comma, and `handleMessage`
panics with it. The same happens for the envelope with an empty `receiver_id`
and an empty `status`, and for every decoded envelope, on every gateway: no
envelope is rejected with an error. Nothing is looked up, written or published
before the panic. -/
theorem C25_handleMessage_panics_on_validation :
    decodeFrame stickerFrame = .ok (some stickerDTO)
    ∧ validate.Struct (some stickerDTO)
      = .panic "Undefined validation function  oneof on field MessageType"
    ∧ handleMessage (nodeAGateway [("bob", .meta bobOnNodeA)] bobPool) stickerFrame
      = (.panic "Undefined validation function  oneof on field MessageType", [],
          [("bob", .meta bobOnNodeA)])
    ∧ validate.Struct (some blankDTO)
      = .panic "Undefined validation function  oneof on field MessageType"
    ∧ (∀ (g : Gateway) (msg : Bytes) (m : MessageDTO),
        g.validateStruct = validate.Struct → g.unmarshal msg = .ok (some m) →
        handleMessage g msg
          = (.panic "Undefined validation function  oneof on field MessageType", [],
              g.statusMap)) := by
  refine ⟨rfl, validate_Struct_panics _, ?_, validate_Struct_panics _, ?_⟩
  · have hd : decodeFrame stickerFrame = .ok (some stickerDTO) := rfl
    simp only [handleMessage, nodeAGateway, sampleGateway, hd, validate_Struct_panics]
  · intro g msg m hv hd
    simp only [handleMessage, hd, hv, validate_Struct_panics]

/-! ## Theorems: generator start-up, registry lookups, reaper, counter -/

/-- C26 (code defect). With machine id 1024 `NewIDGenerator` fails, and
`InitGenerator` returns nil all the same: no generator is stored and
`GeneratorFactory()` is nil. `InitGenerator` returns nil on every input. -/
theorem C26_InitGenerator_swallows_constructor_error :
    (NewIDGenerator rangeCheckedNode 1024 none).toOption.isNone = true
    ∧ (InitGenerator rangeCheckedNode GeneratorSingleton.initial 1024 none).1 = none
    ∧ (GeneratorFactory
        (InitGenerator rangeCheckedNode GeneratorSingleton.initial 1024 none).2).isNone = true
    ∧ (∀ (newNode : Int → Except String Unit) (st : GeneratorSingleton) (machineId : Int)
        (redisDown : Option String), (InitGenerator newNode st machineId redisDown).1 = none) := by
  refine ⟨rfl, rfl, rfl, ?_⟩
  intro newNode st machineId redisDown
  unfold InitGenerator
  by_cases hdone : st.onceDone = true
  · simp [hdone]
  · cases hnew : NewIDGenerator newNode machineId redisDown <;> simp [hdone, hnew]

/-- After the entries of a key are deleted, the key is not found. -/
theorem find_filter_same_key (conns : List (String × WsConn)) (k : String) :
    (conns.filter (fun kv => !(kv.1 == k))).find? (fun kv => kv.1 == k) = none := by
  rw [List.find?_eq_none]
  intro x hx
  have := (List.mem_filter.mp hx).2
  simpa using this

/-- For a registry that is not full, after `AddConnTemplate(k, c)` the lookup
returns `c` and reports found, and after a following `ReleaseConnTemplate(k)`
the lookup returns nil and reports not found. -/
theorem GetConnTemplate_after_add_and_release (p : Pools) (k : String) (c : Option Nat)
    (hroom : p.cnt < p.max) :
    (p.AddConnTemplate k c).2.GetConnTemplate k = (c, true)
    ∧ ((p.AddConnTemplate k c).2.ReleaseConnTemplate k).GetConnTemplate k = (none, false) := by
  have hnot : ¬ p.cnt ≥ p.max := by omega
  have hadd : (p.AddConnTemplate k c).2
      = { p with
          conns := (k, { Conn := c, clientID := k }) :: p.conns.filter (fun kv => !(kv.1 == k))
          cnt := (p.cnt + 1) % 2 ^ 32 } := by
    simp [Pools.AddConnTemplate, hnot]
  rw [hadd]
  constructor
  · simp [Pools.GetConnTemplate]
  · have hnone := find_filter_same_key (p.conns.filter (fun kv => !(kv.1 == k))) k
    simp only [Pools.ReleaseConnTemplate, List.find?_cons, beq_self_eq_true,
      Pools.GetConnTemplate, List.filter_cons, Bool.not_true, Bool.false_eq_true, if_false,
      hnone]

/-- C27 (code defect). In the scenario of `TestNewWorkPools` (capacity 32, key
`lh`) the lookup after `AddConnTemplate` reports found, and the lookup after
`ReleaseConnTemplate` reports not found, where the test asserts found and
raises its error: `LoadAndDelete` has removed the entry. The same holds for
every registry that is not full, every key and every connection. -/
theorem C27_GetConnTemplate_after_release_not_found :
    ((NewWsPool 32).AddConnTemplate "lh" (some 1)).2.GetConnTemplate "lh" = (some 1, true)
    ∧ (((NewWsPool 32).AddConnTemplate "lh" (some 1)).2.ReleaseConnTemplate
        "lh").GetConnTemplate "lh" = (none, false)
    ∧ (∀ (p : Pools) (k : String) (c : Option Nat), p.cnt < p.max →
        (p.AddConnTemplate k c).2.GetConnTemplate k = (c, true)
        ∧ ((p.AddConnTemplate k c).2.ReleaseConnTemplate k).GetConnTemplate k
            = (none, false)) :=
  ⟨rfl, rfl, GetConnTemplate_after_add_and_release⟩

/-- C29 (code defect). Go's `%` keeps the sign of the dividend. When the counter
is at the largest `int64`, the increment wraps to `-2^63`, the remainder by 3 is
`-2`, and `r.nodes[index]` panics: the modulo does not keep the index in range.
The same happens for every negative counter that the length does not divide. -/
theorem C29_Balance_panics_after_counter_wrap :
    wrap64 (9223372036854775807 + 1) = -9223372036854775808
    ∧ Int.tmod (-9223372036854775808) 3 = -2
    ∧ ({ index := 9223372036854775807, nodes := ["A", "B", "C"],
          name := "roundrobin-balancer" } : RoundRobinBalancer).Balance ""
      = (.panic "index out of range",
          { index := -9223372036854775808, nodes := ["A", "B", "C"],
            name := "roundrobin-balancer" })
    ∧ (({ index := -3, nodes := ["A", "B", "C"],
          name := "roundrobin-balancer" } : RoundRobinBalancer).Balance "").1
      = .panic "index out of range" := by
  refine ⟨by decide, by decide, rfl, rfl⟩

/-- C30 (code defect). Registering an id that is already registered replaces
its entry and still increments `cnt`: in a registry of capacity 2, after
`a` is registered twice one connection is stored and `cnt` is 2, so
registering `b` is refused as pool full; and after `a` is released nothing is
stored while `cnt` is 1. -/
theorem C30_Pools_reregistration_inflates_count :
    ((NewWsPool 2).run [.add "a" (some 1), .add "a" (some 2)]).conns
      = [("a", { Conn := some 2, clientID := "a" })]
    ∧ ((NewWsPool 2).run [.add "a" (some 1), .add "a" (some 2)]).cnt = 2
    ∧ (((NewWsPool 2).run [.add "a" (some 1), .add "a" (some 2)]).AddConnTemplate "b"
        (some 3)).1 = some "connection pool full"
    ∧ ((NewWsPool 2).run [.add "a" (some 1), .add "a" (some 2), .release "a"]).conns = []
    ∧ ((NewWsPool 2).run [.add "a" (some 1), .add "a" (some 2), .release "a"]).cnt = 1 := by
  refine ⟨rfl, rfl, rfl, rfl, rfl⟩

/-- The reaper loop appends to `active` the channels that are not expired and
to `closed` the non-nil connections of the expired ones, in order. -/
theorem reapLoop_eq (idleTimeout : Int) (now : Nat → Int) (l : List grpcConnection) :
    ∀ (i : Nat) (active : List grpcConnection) (closed : List Nat),
      reapLoop idleTimeout now i l active closed
        = (active ++ ((l.enumFrom i).filter
              (fun ic => !(ic.2.idleExpired idleTimeout (now ic.1)))).map Prod.snd,
           closed ++ ((l.enumFrom i).filter
              (fun ic => ic.2.idleExpired idleTimeout (now ic.1))).filterMap
                (fun ic => ic.2.conn)) := by
  induction l with
  | nil =>
    intro i active closed
    simp [reapLoop]
  | cons c rest ih =>
    intro i active closed
    by_cases hexp : c.idleExpired idleTimeout (now i) = true
    · cases hc : c.conn with
      | none => simp [reapLoop, hexp, hc, ih, List.enumFrom_cons]
      | some id => simp [reapLoop, hexp, hc, ih, List.enumFrom_cons]
    · have hexp' : c.idleExpired idleTimeout (now i) = false := by simpa using hexp
      simp [reapLoop, hexp', ih, List.enumFrom_cons]

/-- The loop's result, in the words of the claim. -/
theorem reapLoop_matches_claim (idleTimeout : Int) (now : Nat → Int)
    (l : List grpcConnection) :
    reapLoop idleTimeout now 0 l [] []
      = (keptByClaim idleTimeout now l,
         (removedByClaim idleTimeout now l).filterMap (fun c => c.conn)) := by
  rw [reapLoop_eq]
  have hkeep : (fun ic : Nat × grpcConnection => !(ic.2.idleExpired idleTimeout (now ic.1)))
      = (fun ic => ic.2.inUse || !(decide (now ic.1 - ic.2.lastUsed > idleTimeout))) := by
    funext ic
    cases h : ic.2.inUse <;> simp [grpcConnection.idleExpired, h]
  have hdrop : (fun ic : Nat × grpcConnection => ic.2.idleExpired idleTimeout (now ic.1))
      = (fun ic => !ic.2.inUse && decide (now ic.1 - ic.2.lastUsed > idleTimeout)) := by
    funext ic
    rfl
  simp only [List.nil_append, hkeep, hdrop, keptByClaim, removedByClaim, List.filterMap_map]
  rfl

/-- The kept channels are a sublist of the original list, and contain every
channel that is in use. -/
theorem keptByClaim_sublist_and_in_use (idleTimeout : Int) (now : Nat → Int)
    (l : List grpcConnection) :
    (keptByClaim idleTimeout now l).Sublist l
    ∧ (∀ c ∈ l, c.inUse = true → c ∈ keptByClaim idleTimeout now l)
    ∧ (∀ c ∈ removedByClaim idleTimeout now l, c.inUse = false)
    ∧ (keptByClaim idleTimeout now l).length + (removedByClaim idleTimeout now l).length
        = l.length := by
  refine ⟨?_, ?_, ?_, ?_⟩
  · have h := (List.filter_sublist (p := fun ic : Nat × grpcConnection =>
        ic.2.inUse || !(decide (now ic.1 - ic.2.lastUsed > idleTimeout)))
        (l.enumFrom 0)).map Prod.snd
    rw [List.enumFrom_map_snd] at h
    exact h
  · intro c hc huse
    have hmem : c ∈ (l.enumFrom 0).map Prod.snd := by rw [List.enumFrom_map_snd]; exact hc
    obtain ⟨ic, hic, hsnd⟩ := List.mem_map.mp hmem
    unfold keptByClaim
    refine List.mem_map.mpr ⟨ic, List.mem_filter.mpr ⟨hic, ?_⟩, hsnd⟩
    simp [hsnd, huse]
  · intro c hc
    unfold removedByClaim at hc
    obtain ⟨ic, hic, hsnd⟩ := List.mem_map.mp hc
    have hp := (List.mem_filter.mp hic).2
    rw [← hsnd]
    simp only [Bool.and_eq_true, Bool.not_eq_true'] at hp
    exact hp.1
  · unfold keptByClaim removedByClaim
    simp only [List.length_map]
    have hcompl : (fun ic : Nat × grpcConnection =>
          !ic.2.inUse && decide (now ic.1 - ic.2.lastUsed > idleTimeout))
        = (fun ic => !(ic.2.inUse || !(decide (now ic.1 - ic.2.lastUsed > idleTimeout)))) := by
      funext ic
      cases ic.2.inUse <;> simp
    rw [hcompl]
    have hlen := List.length_eq_length_filter_add
      (fun ic : Nat × grpcConnection =>
        ic.2.inUse || !(decide (now ic.1 - ic.2.lastUsed > idleTimeout))) (l := l.enumFrom 0)
    simp only [List.enumFrom_length] at hlen
    omega

/-- C28. One pass of the idle reaper, for every address of the pool map with
channel list `l`: the list left for the address consists of exactly the
channels that are in use or whose last use, when tested, is not older than
`IdleTimeout`, in their original order; the channels removed are exactly those
not in use and older than `IdleTimeout`, and their non-nil connections are the
ones closed; no channel in use is removed; kept and removed channels together
are all of `l`; the address is removed from the map exactly when no channel is
kept; addresses absent from the map stay absent and the configuration is
unchanged. -/
theorem C28_cleanupPass_removes_expired_idle (p : grpcClientPool)
    (now : String → Nat → Int) (addr : String) (l : List grpcConnection)
    (hl : p.connections addr = some l) :
    (p.cleanupPass now).connections addr
      = (if keptByClaim p.config.IdleTimeout (now addr) l = [] then none
         else some (keptByClaim p.config.IdleTimeout (now addr) l))
    ∧ p.cleanupClosed now addr
      = (removedByClaim p.config.IdleTimeout (now addr) l).filterMap (fun c => c.conn)
    ∧ (keptByClaim p.config.IdleTimeout (now addr) l).Sublist l
    ∧ (∀ c ∈ l, c.inUse = true → c ∈ keptByClaim p.config.IdleTimeout (now addr) l)
    ∧ (∀ c ∈ removedByClaim p.config.IdleTimeout (now addr) l, c.inUse = false)
    ∧ (keptByClaim p.config.IdleTimeout (now addr) l).length
        + (removedByClaim p.config.IdleTimeout (now addr) l).length = l.length
    ∧ (∀ a, p.connections a = none → (p.cleanupPass now).connections a = none)
    ∧ (p.cleanupPass now).config = p.config := by
  obtain ⟨h1, h2, h3, h4⟩ :=
    keptByClaim_sublist_and_in_use p.config.IdleTimeout (now addr) l
  have hloop := reapLoop_matches_claim p.config.IdleTimeout (now addr) l
  refine ⟨?_, ?_, h1, h2, h3, h4, ?_, rfl⟩
  · simp only [grpcClientPool.cleanupPass, hl, hloop, List.length_eq_zero]
  · simp only [grpcClientPool.cleanupClosed, hl, hloop]
  · intro a ha
    simp only [grpcClientPool.cleanupPass, ha]

/-- Witness of C28: of three channels, tested at time 100 with an idle timeout
of 50, the one in use and the one used at 90 stay, the one idle since 0 goes. -/
theorem C28_cleanupPass_removes_expired_idle_witness :
    (agedPool.cleanupPass (fun _ _ => 100)).connections "10.0.0.9:50051"
      = some [{ conn := some 1, inUse := true, lastUsed := 0 },
              { conn := some 3, inUse := false, lastUsed := 90 }]
    ∧ agedPool.cleanupClosed (fun _ _ => 100) "10.0.0.9:50051" = [2] :=
  let h := C28_cleanupPass_removes_expired_idle agedPool (fun _ _ => 100) "10.0.0.9:50051"
    [{ conn := some 1, inUse := true, lastUsed := 0 },
     { conn := some 2, inUse := false, lastUsed := 0 },
     { conn := some 3, inUse := false, lastUsed := 90 }] rfl
  ⟨h.1, h.2.1⟩

end IM
